import Mathlib

/-!
Verification development for the horned-owl OWL 2 Functional-Style Syntax
core: the in-memory model (`src/model.rs`), the axiom-index query layer
(`src/index.rs`), and the OFN parse-tree lowering
(`src/io/ofn/reader/from_pair.rs`).

Rust source constructs are embedded shallowly:

* machine integers become `Nat` with explicit bounds where overflow matters;
* fallible code returns `Except`; a Rust panic (`unwrap`, `expect`,
  `unimplemented!`) is a distinct error constructor `LErr.panicked`, kept
  apart from the library's own `HornedError` results;
* `Rc` sharing is invisible to values: derived structural equality on an
  `Rc<String>` wrapper is string equality;
* `BTreeSet` annotation sets become `Finset` (equality of Rust `BTreeSet`s
  is equality of their element sets);
* `Vec<ClassExpression>` / `Vec<DataRange>` inside the recursive expression
  types are embedded as the isomorphic mutual list types
  `ClassExpressionList` / `DataRangeList`, because nested-inductive
  `List` recursion does not support derived decidable equality here.

Identifiers follow the source names except where Lean's lexer or keyword
set forbids them; each such renaming is noted at the declaration.
-/

/-! ## Built-in vocabulary (the `crate::vocab` module is not under `src/`) -/

/-- Modelled from the spec: the IRI string of `owl:Thing`
(`OWL::Thing.iri_str()` from the missing `vocab` module; expansion of the
`owl:` namespace `http://www.w3.org/2002/07/owl#` given in spec scenario S2). -/
def owlThingIRIStr : String := "http://www.w3.org/2002/07/owl#Thing"

/-- Modelled from the spec: the IRI string of `rdfs:Literal`
(`OWL2Datatype::RDFSLiteral.iri_str()` from the missing `vocab` module;
standard `rdfs:` namespace expansion). -/
def rdfsLiteralIRIStr : String := "http://www.w3.org/2000/01/rdf-schema#Literal"

/-! ## The old in-memory model, `src/model.rs` -/

namespace OldModel

/-- `pub struct IRI(Rc<String>)` from `src/model.rs`. The `Rc` only shares
storage; derived equality compares the underlying strings. -/
structure IRI where
  str : String
deriving DecidableEq, Repr

/-- `pub struct IRIBuild(Rc<RefCell<HashSet<IRI>>>)` from `src/model.rs`:
the interning cache, embedded as the (unordered) list of cached IRIs with
explicit state passing. -/
structure IRIBuild where
  cache : List IRI
deriving DecidableEq, Repr

/-- `IRIBuild::iri` from `src/model.rs`: build the candidate IRI; if the
cache holds an equal one return the cached value (`contains` + `get` is
`find?`), otherwise insert the new IRI and return it. Returns the IRI
together with the updated cache. -/
def IRIBuild.iri (b : IRIBuild) (s : String) : IRI × IRIBuild :=
  let i : IRI := IRI.mk s
  match b.cache.find? (fun j => j == i) with
  | some j => (j, b)
  | none => (i, IRIBuild.mk (i :: b.cache))

/-- `pub struct Class(pub IRI)` from `src/model.rs`. -/
structure Class where
  iri : IRI
deriving DecidableEq, Repr

/-- `pub struct ObjectProperty(pub IRI)` from `src/model.rs`. -/
structure ObjectProperty where
  iri : IRI
deriving DecidableEq, Repr

/-- `pub enum NamedEntity` from `src/model.rs`. -/
inductive NamedEntity where
  | Class (c : Class)
  | ObjectProperty (p : ObjectProperty)
deriving DecidableEq, Repr

mutual
/-- `pub enum ClassExpression` from `src/model.rs`. The `Vec` operands of
`And` / `Or` are embedded as `ClassExpressionList`. -/
inductive ClassExpression where
  | Class (c : Class)
  | Some (o : ObjectProperty) (ce : ClassExpression)
  | Only (o : ObjectProperty) (ce : ClassExpression)
  | And (o : ClassExpressionList)
  | Or (o : ClassExpressionList)
  | Not (ce : ClassExpression)
deriving DecidableEq, Repr
/-- Isomorphic embedding of `Vec<ClassExpression>`. -/
inductive ClassExpressionList where
  | nil
  | cons (c : ClassExpression) (t : ClassExpressionList)
deriving DecidableEq, Repr
end

/-- `pub struct SubClass` from `src/model.rs`. -/
structure SubClass where
  superclass : ClassExpression
  subclass : ClassExpression
deriving DecidableEq, Repr

/-- `pub struct OntologyID` from `src/model.rs`. -/
structure OntologyID where
  iri : Option IRI
  viri : Option IRI
deriving DecidableEq, Repr

/-- `pub struct Ontology` from `src/model.rs`. The three `HashSet` fields
are embedded as lists with membership-checked insertion (the sets never
hold duplicates); the `iri_build` field is carried unchanged. The source
field `class` is named `classes` here (`class` is a Lean keyword). -/
structure Ontology where
  iri_build : IRIBuild
  id : OntologyID
  classes : List Class
  subclass : List SubClass
  object_property : List ObjectProperty
deriving DecidableEq, Repr

/-- `Ontology::new` from `src/model.rs`. -/
def Ontology.new : Ontology :=
  Ontology.mk (IRIBuild.mk []) (OntologyID.mk none none) [] [] []

/-- `Ontology::subclass_exp` from `src/model.rs`: build the `SubClass`
pair; if the set already holds it, return it unchanged, otherwise insert
it. Returns the pair together with the updated ontology. -/
def Ontology.subclass_exp (o : Ontology) (superclass subclass : ClassExpression) :
    SubClass × Ontology :=
  let sc : SubClass := SubClass.mk superclass subclass
  if sc ∈ o.subclass then (sc, o)
  else (sc, Ontology.mk o.iri_build o.id o.classes (sc :: o.subclass) o.object_property)

/-- `Ontology::subclass` from `src/model.rs` (named `addSubclass` here
because the `subclass` field occupies the source name): wraps both classes
in `ClassExpression::Class` and delegates to `subclass_exp`. -/
def Ontology.addSubclass (o : Ontology) (superclass subclass : Class) :
    SubClass × Ontology :=
  o.subclass_exp (ClassExpression.Class superclass) (ClassExpression.Class subclass)

/-- `Ontology::is_subclass_exp` from `src/model.rs`: scan the stored pairs
for one whose `superclass` and `subclass` fields match exactly
(`iter().filter(..).next()` is `find?`) and report whether one exists. -/
def Ontology.is_subclass_exp (o : Ontology) (superclass subclass : ClassExpression) :
    Bool :=
  (o.subclass.find? (fun sc =>
    sc.superclass == superclass && sc.subclass == subclass)).isSome

/-- `Ontology::is_subclass` from `src/model.rs`. -/
def Ontology.is_subclass (o : Ontology) (superclass subclass : Class) : Bool :=
  o.is_subclass_exp (ClassExpression.Class superclass) (ClassExpression.Class subclass)

end OldModel

/-! ## The AST shared by the lowering engine and the query layer

These are the `crate::model` types the parser (`from_pair.rs`) and the
query layer (`src/index.rs`) operate on. Only the module's callers are
under `src/`; the value types themselves follow the spec's data model
(spec §3) and the constructors used by the source. `A: ForIRI` is erased:
IRIs are their strings. Everything lives in the `Horned` namespace. -/

namespace Horned

/-- An interned IRI: a wrapper whose derived equality is string equality. -/
structure IRI where
  str : String
deriving DecidableEq, Repr

/-- `Build::iri` at the value level: the interning cache shares storage but
always returns an IRI whose string is exactly the argument (proved for the
in-source `IRIBuild` by the C7 theorem), so the pure embedding is the
constructor. -/
def buildIRI (s : String) : IRI := IRI.mk s

structure Class where
  iri : IRI
deriving DecidableEq, Repr

structure Datatype where
  iri : IRI
deriving DecidableEq, Repr

structure ObjectProperty where
  iri : IRI
deriving DecidableEq, Repr

structure DataProperty where
  iri : IRI
deriving DecidableEq, Repr

structure AnnotationProperty where
  iri : IRI
deriving DecidableEq, Repr

structure NamedIndividual where
  iri : IRI
deriving DecidableEq, Repr

/-- `AnonymousIndividual(A)`: carries the node identifier string. -/
structure AnonymousIndividual where
  nodeID : String
deriving DecidableEq, Repr

inductive Individual where
  | Named (n : NamedIndividual)
  | Anonymous (a : AnonymousIndividual)
deriving DecidableEq, Repr

/-- `Literal` (spec §3): simple, language-tagged, or datatyped. -/
inductive Literal where
  | Simple (literal : String)
  | Language (literal : String) (lang : String)
  | Datatype (literal : String) (datatype_iri : IRI)
deriving DecidableEq, Repr

inductive AnnotationValue where
  | IRI (i : IRI)
  | Literal (l : Literal)
  | AnonymousIndividual (a : AnonymousIndividual)
deriving DecidableEq, Repr

/-- `Annotation { ap, av }` (spec §3); named `Annot` here (the source name
is unavailable to this development). -/
structure Annot where
  ap : AnnotationProperty
  av : AnnotationValue
deriving DecidableEq, Repr

inductive ObjectPropertyExpression where
  | ObjectProperty (p : ObjectProperty)
  | InverseObjectProperty (p : ObjectProperty)
deriving DecidableEq, Repr

/-- The closed set of OWL 2 constraining facets (spec §4.E.10). -/
inductive Facet where
  | MinInclusive | MaxInclusive | MinExclusive | MaxExclusive
  | Length | MinLength | MaxLength | Pattern | LangRange
  | TotalDigits | FractionDigits
deriving DecidableEq, Repr

/-- Modelled from the spec: `Facet::all()` (the `vocab` module is not
under `src/`). -/
def Facet.all : List Facet :=
  [Facet.MinInclusive, Facet.MaxInclusive, Facet.MinExclusive,
   Facet.MaxExclusive, Facet.Length, Facet.MinLength, Facet.MaxLength,
   Facet.Pattern, Facet.LangRange, Facet.TotalDigits, Facet.FractionDigits]

/-- Modelled from the spec: `facet.iri_str()` (the `vocab` module is not
under `src/`; the spec lists the facet names, mapped to their standard
XSD / RDF namespace IRIs). -/
def Facet.iriStr : Facet → String
  | Facet.MinInclusive => "http://www.w3.org/2001/XMLSchema#minInclusive"
  | Facet.MaxInclusive => "http://www.w3.org/2001/XMLSchema#maxInclusive"
  | Facet.MinExclusive => "http://www.w3.org/2001/XMLSchema#minExclusive"
  | Facet.MaxExclusive => "http://www.w3.org/2001/XMLSchema#maxExclusive"
  | Facet.Length => "http://www.w3.org/2001/XMLSchema#length"
  | Facet.MinLength => "http://www.w3.org/2001/XMLSchema#minLength"
  | Facet.MaxLength => "http://www.w3.org/2001/XMLSchema#maxLength"
  | Facet.Pattern => "http://www.w3.org/2001/XMLSchema#pattern"
  | Facet.LangRange => "http://www.w3.org/1999/02/22-rdf-syntax-ns#langRange"
  | Facet.TotalDigits => "http://www.w3.org/2001/XMLSchema#totalDigits"
  | Facet.FractionDigits => "http://www.w3.org/2001/XMLSchema#fractionDigits"

/-- `FacetRestriction { f, l }`; suffixed `T` to keep the name free for the
grammar rule of the same name. -/
structure FacetRestrictionT where
  f : Facet
  l : Literal
deriving DecidableEq, Repr

mutual
/-- `DataRange` (spec §3). `Vec<DataRange>` operands are embedded as
`DataRangeList`. -/
inductive DataRange where
  | Datatype (d : Datatype)
  | DataIntersectionOf (l : DataRangeList)
  | DataUnionOf (l : DataRangeList)
  | DataComplementOf (r : DataRange)
  | DataOneOf (ls : List Literal)
  | DatatypeRestriction (d : Datatype) (fs : List FacetRestrictionT)
deriving DecidableEq, Repr
/-- Isomorphic embedding of `Vec<DataRange>`. -/
inductive DataRangeList where
  | nil
  | cons (d : DataRange) (t : DataRangeList)
deriving DecidableEq, Repr
end

mutual
/-- `ClassExpression` (spec §3): the full OWL 2 DL set. `Vec` operands are
embedded as `ClassExpressionList`; boxed operands are plain recursion. -/
inductive ClassExpression where
  | Class (c : Class)
  | ObjectIntersectionOf (l : ClassExpressionList)
  | ObjectUnionOf (l : ClassExpressionList)
  | ObjectComplementOf (ce : ClassExpression)
  | ObjectOneOf (is : List Individual)
  | ObjectSomeValuesFrom (ope : ObjectPropertyExpression) (bce : ClassExpression)
  | ObjectAllValuesFrom (ope : ObjectPropertyExpression) (bce : ClassExpression)
  | ObjectHasValue (ope : ObjectPropertyExpression) (i : Individual)
  | ObjectHasSelf (ope : ObjectPropertyExpression)
  | ObjectMinCardinality (n : Nat) (ope : ObjectPropertyExpression) (bce : ClassExpression)
  | ObjectMaxCardinality (n : Nat) (ope : ObjectPropertyExpression) (bce : ClassExpression)
  | ObjectExactCardinality (n : Nat) (ope : ObjectPropertyExpression) (bce : ClassExpression)
  | DataSomeValuesFrom (dp : DataProperty) (dr : DataRange)
  | DataAllValuesFrom (dp : DataProperty) (dr : DataRange)
  | DataHasValue (dp : DataProperty) (l : Literal)
  | DataMinCardinality (n : Nat) (dp : DataProperty) (dr : DataRange)
  | DataMaxCardinality (n : Nat) (dp : DataProperty) (dr : DataRange)
  | DataExactCardinality (n : Nat) (dp : DataProperty) (dr : DataRange)
deriving DecidableEq, Repr
/-- Isomorphic embedding of `Vec<ClassExpression>`. -/
inductive ClassExpressionList where
  | nil
  | cons (c : ClassExpression) (t : ClassExpressionList)
deriving DecidableEq, Repr
end

/-- `OntologyID { iri, viri }` (spec §3). -/
structure OntologyID where
  iri : Option IRI
  viri : Option IRI
deriving DecidableEq, Repr

/-- The component (axiom) union, restricted to the variants the verified
lowering arms and the query layer construct: the ontology header
components, the six declarations, and the class axioms whose arms are
embedded below. The remaining source variants are structurally identical
wrappers and are not referenced by any verified property. The source
variant `OntologyAnnotation` is named `OntologyAnnot` here. -/
inductive Component where
  | OntologyID (id : OntologyID)
  | Import (i : IRI)
  | OntologyAnnot (a : Annot)
  | DeclareClass (c : Class)
  | DeclareDatatype (d : Datatype)
  | DeclareObjectProperty (p : ObjectProperty)
  | DeclareDataProperty (p : DataProperty)
  | DeclareAnnotationProperty (p : AnnotationProperty)
  | DeclareNamedIndividual (i : NamedIndividual)
  | SubClassOf (sup : ClassExpression) (sub : ClassExpression)
  | EquivalentClasses (l : ClassExpressionList)
  | DisjointClasses (l : ClassExpressionList)
  | ClassAssertion (ce : ClassExpression) (i : Individual)
deriving DecidableEq, Repr

/-- `AxiomKind`: the coarse kind tag, one per component variant. -/
inductive AxiomKind where
  | OntologyID | Import | OntologyAnnot
  | DeclareClass | DeclareDatatype | DeclareObjectProperty
  | DeclareDataProperty | DeclareAnnotationProperty | DeclareNamedIndividual
  | SubClassOf | EquivalentClasses | DisjointClasses | ClassAssertion
deriving DecidableEq, Repr

/-- `Axiom::kind` / `Component::kind`. -/
def Component.kind : Component → AxiomKind
  | Component.OntologyID _ => AxiomKind.OntologyID
  | Component.Import _ => AxiomKind.Import
  | Component.OntologyAnnot _ => AxiomKind.OntologyAnnot
  | Component.DeclareClass _ => AxiomKind.DeclareClass
  | Component.DeclareDatatype _ => AxiomKind.DeclareDatatype
  | Component.DeclareObjectProperty _ => AxiomKind.DeclareObjectProperty
  | Component.DeclareDataProperty _ => AxiomKind.DeclareDataProperty
  | Component.DeclareAnnotationProperty _ => AxiomKind.DeclareAnnotationProperty
  | Component.DeclareNamedIndividual _ => AxiomKind.DeclareNamedIndividual
  | Component.SubClassOf _ _ => AxiomKind.SubClassOf
  | Component.EquivalentClasses _ => AxiomKind.EquivalentClasses
  | Component.DisjointClasses _ => AxiomKind.DisjointClasses
  | Component.ClassAssertion _ _ => AxiomKind.ClassAssertion

/-- `AnnotatedComponent { component, ann }` (spec §3); the `BTreeSet` of
annotations is a `Finset`. -/
structure AnnotatedComponent where
  component : Component
  ann : Finset Annot
deriving DecidableEq

/-- `AnnotatedComponent::kind` delegates to the component. -/
def AnnotatedComponent.kind (a : AnnotatedComponent) : AxiomKind :=
  a.component.kind

/-- `AnnotatedAxiom::logical_eq`: equality of the component payload,
ignoring annotations (spec glossary, "Logical equality"). -/
def AnnotatedComponent.logicalEq (a b : AnnotatedComponent) : Bool :=
  a.component == b.component

end Horned

/-! ## The axiom-indexed ontology and query layer, `src/index.rs`

The container `AxiomMappedOntology` (the `crate::ontology::axiom_mapped`
module is not under `src/`) is modelled from the spec, §4.F and §5:
components are stored in insertion order; `insert` appends; `take` removes
and returns an exact (annotation-equal) match; `annotated_axiom(kind)`
iterates the components of one kind in insertion order. The query
functions themselves are translated from `src/index.rs`. -/

namespace Horned

/-- Modelled from the spec (§4.F, §5): the axiom-indexed ontology as its
insertion-ordered component sequence. -/
abbrev AxiomMappedOntology := List AnnotatedComponent

/-- Modelled from the spec (§4.F): `o.i().annotated_axiom(kind)` — the
components of the given kind, in insertion order. -/
def annotatedAxiomOfKind (o : AxiomMappedOntology) (k : AxiomKind) :
    List AnnotatedComponent :=
  o.filter (fun a => a.kind == k)

/-- Modelled from the spec (§4.F): `insert` appends a component. -/
def insertAxiom (o : AxiomMappedOntology) (a : AnnotatedComponent) :
    AxiomMappedOntology :=
  o ++ [a]

/-- Modelled from the spec (§4.F): `take` removes and returns an exact
(annotation-equal) match, or leaves the ontology unchanged. -/
def takeAxiom (o : AxiomMappedOntology) (a : AnnotatedComponent) :
    Option AnnotatedComponent × AxiomMappedOntology :=
  if a ∈ o then (some a, o.erase a) else (none, o)

/-- `find_logically_equal_axiom` from `src/index.rs`: among the components
of `axiom`'s kind, find the first (insertion order) that is logically
equal to it, ignoring annotations. -/
def findLogicallyEqualAxiom (o : AxiomMappedOntology)
    (axm : AnnotatedComponent) : Option AnnotatedComponent :=
  (annotatedAxiomOfKind o axm.kind).find? (fun a => a.logicalEq axm)

/-- `update_logically_equal_axiom` from `src/index.rs`: if some logically
equal component exists, take it out of the ontology (`take(..).unwrap()`
returns exactly the component that was found, which is present, so the
panic branch of `unwrap` is unreachable), merge its annotation set into
the new component's (`axiom.ann.append(&mut taken.ann)` — set union),
then insert. Otherwise insert directly. -/
def updateLogicallyEqualAxiom (o : AxiomMappedOntology)
    (axm : AnnotatedComponent) : AxiomMappedOntology :=
  match findLogicallyEqualAxiom o axm with
  | some eqAxiom =>
      insertAxiom (o.erase eqAxiom)
        (AnnotatedComponent.mk axm.component (axm.ann ∪ eqAxiom.ann))
  | none => insertAxiom o axm

/-- `NamedEntityKind` (spec §4.F). -/
inductive NamedEntityKind where
  | Class | ObjectProperty | AnnotationProperty
  | DataProperty | NamedIndividual | Datatype
deriving DecidableEq, Repr

/-- The declaration component for a given entity kind over an IRI, as
constructed by `find_declaration_kind` (each `Declare*(Entity(iri))` is
converted into an annotation-free `AnnotatedAxiom`). -/
def declareComponent (k : NamedEntityKind) (i : IRI) : Component :=
  match k with
  | NamedEntityKind.Class => Component.DeclareClass (Class.mk i)
  | NamedEntityKind.ObjectProperty =>
      Component.DeclareObjectProperty (ObjectProperty.mk i)
  | NamedEntityKind.AnnotationProperty =>
      Component.DeclareAnnotationProperty (AnnotationProperty.mk i)
  | NamedEntityKind.DataProperty =>
      Component.DeclareDataProperty (DataProperty.mk i)
  | NamedEntityKind.NamedIndividual =>
      Component.DeclareNamedIndividual (NamedIndividual.mk i)
  | NamedEntityKind.Datatype => Component.DeclareDatatype (Datatype.mk i)

/-- `find_declaration_kind` from `src/index.rs`: try the six declaration
axioms in the fixed source order (the `match 10 { _ if .. }` chain is a
guard cascade, i.e. an if-chain); fall through to the built-in vocabulary
table `crate::vocab::to_built_in_entity`, which is not under `src/` and is
therefore passed in as the abstract table `builtin`. -/
def findDeclarationKind (builtin : IRI → Option NamedEntityKind)
    (o : AxiomMappedOntology) (iri : IRI) : Option NamedEntityKind :=
  if (findLogicallyEqualAxiom o
       (AnnotatedComponent.mk (Component.DeclareClass (Class.mk iri)) ∅)).isSome then
    some NamedEntityKind.Class
  else if (findLogicallyEqualAxiom o
       (AnnotatedComponent.mk
         (Component.DeclareObjectProperty (ObjectProperty.mk iri)) ∅)).isSome then
    some NamedEntityKind.ObjectProperty
  else if (findLogicallyEqualAxiom o
       (AnnotatedComponent.mk
         (Component.DeclareAnnotationProperty (AnnotationProperty.mk iri)) ∅)).isSome then
    some NamedEntityKind.AnnotationProperty
  else if (findLogicallyEqualAxiom o
       (AnnotatedComponent.mk
         (Component.DeclareDataProperty (DataProperty.mk iri)) ∅)).isSome then
    some NamedEntityKind.DataProperty
  else if (findLogicallyEqualAxiom o
       (AnnotatedComponent.mk
         (Component.DeclareNamedIndividual (NamedIndividual.mk iri)) ∅)).isSome then
    some NamedEntityKind.NamedIndividual
  else if (findLogicallyEqualAxiom o
       (AnnotatedComponent.mk (Component.DeclareDatatype (Datatype.mk iri)) ∅)).isSome then
    some NamedEntityKind.Datatype
  else
    builtin iri

/-- `is_annotation_property` from `src/index.rs`. -/
def isAnnotationProperty (builtin : IRI → Option NamedEntityKind)
    (o : AxiomMappedOntology) (iri : IRI) : Bool :=
  match findDeclarationKind builtin o iri with
  | some NamedEntityKind.AnnotationProperty => true
  | _ => false

end Horned

/-! ## The OFN parse tree and error model, `src/io/ofn/reader/`

A pest `Pair<Rule>` carries a rule tag, the matched slice (`as_str`), a
source span, and an ordered child sequence (`into_inner`). Spans are
abstracted to a single position number. `from_pair` performs a rule check
only under `cfg!(debug_assertions)`; the embedding models the release
behavior, where `from_pair` is `from_pair_unchecked` (spec §4.E). A Rust
panic (`.unwrap()` on `None`, `.expect(..)`, `unimplemented!()`) is the
`LErr.panicked` outcome; library errors are `LErr.horned`. -/

namespace Horned

/-- The grammar rule vocabulary (the subset the embedded lowering arms
inspect; the pest grammar itself is an external collaborator, spec §1).
The SWRL rule `Rule::Rule` keeps its name; the source rule
`Rule::Annotation` is named `Annot` here. -/
inductive Rule where
  | Class | Datatype | ObjectProperty | DataProperty | AnnotationProperty
  | NamedIndividual | AnonymousIndividual | NodeID
  | IRI | AbbreviatedIRI | FullIRI
  | QuotedString | NonNegativeInteger | LanguageTag
  | Literal | TypedLiteral | StringLiteralWithLanguage | StringLiteralNoLanguage
  | ClassExpression
  | ObjectIntersectionOf | ObjectUnionOf | ObjectComplementOf | ObjectOneOf
  | ObjectSomeValuesFrom | ObjectAllValuesFrom | ObjectHasValue | ObjectHasSelf
  | ObjectMinCardinality | ObjectMaxCardinality | ObjectExactCardinality
  | DataSomeValuesFrom | DataAllValuesFrom | DataHasValue
  | DataMinCardinality | DataMaxCardinality | DataExactCardinality
  | DataRange | DataIntersectionOf | DataUnionOf | DataComplementOf
  | DataOneOf | DatatypeRestriction | ConstrainingFacet | FacetRestriction
  | ObjectPropertyExpression | InverseObjectProperty
  | Individual | Annot | Annotations
  | Axiom | Declaration
  | ClassDeclaration | DatatypeDeclaration | ObjectPropertyDeclaration
  | DataPropertyDeclaration | AnnotationPropertyDeclaration
  | NamedIndividualDeclaration
  | SubClassOf | EquivalentClasses | DisjointClasses | ClassAssertion
  | Rule | DGAxiom
  | Ontology | OntologyIRI | VersionIRI
  | Imports | OntologyAnnotations | Axioms
deriving DecidableEq, Repr

/-- A pest parse node: rule tag, matched slice, span position, children. -/
inductive Pair where
  | mk (rule : Rule) (str : String) (span : Nat) (children : List Pair)
deriving Repr

def Pair.rule : Pair → Rule
  | Pair.mk r _ _ _ => r

def Pair.str : Pair → String
  | Pair.mk _ s _ _ => s

def Pair.span : Pair → Nat
  | Pair.mk _ _ sp _ => sp

def Pair.children : Pair → List Pair
  | Pair.mk _ _ _ cs => cs

/-- `HornedError` (spec §7): an error kind rendered as a message, carrying
the input span (`HornedError::invalid_at(msg, span)`). -/
inductive HornedError where
  | invalidAt (msg : String) (span : Nat)
deriving DecidableEq, Repr

/-- The outcome of running a lowering function: a library error
(`HornedError`, propagated by `?`) or a Rust panic. -/
inductive LErr where
  | horned (e : HornedError)
  | panicked (msg : String)
deriving DecidableEq, Repr

abbrev LResult (α : Type) := Except LErr α

/-- The panic raised by `.next().unwrap()` on an exhausted child iterator. -/
def unwrapPanic {α : Type} : LResult α :=
  Except.error (LErr.panicked "called Option::unwrap on a None value")

/-- The panic raised by an `unreachable!(..)` arm. -/
def unreachablePanic {α : Type} (msg : String) : LResult α :=
  Except.error (LErr.panicked msg)

/-- `curie::PrefixMapping`: named bindings plus an optional default. -/
structure PrefixMapping where
  dflt : Option String
  mappings : List (String × String)
deriving DecidableEq, Repr

/-- `curie::ExpansionError`. -/
inductive ExpansionError where
  | Invalid
  | MissingDefault
deriving DecidableEq, Repr

/-- `PrefixMapping::expand_curie`: concatenate the prefix expansion and local
part; `Invalid` if a named prefix is unbound, `MissingDefault` if the empty
prefix is used with no default set (spec §4.C). -/
def PrefixMapping.expandCurie (m : PrefixMapping) (pfx : Option String)
    (loc : String) : Except ExpansionError String :=
  match pfx with
  | some p =>
      match m.mappings.lookup p with
      | some iri => Except.ok (iri ++ loc)
      | none => Except.error ExpansionError.Invalid
  | none =>
      match m.dflt with
      | some iri => Except.ok (iri ++ loc)
      | none => Except.error ExpansionError.MissingDefault

/-- `Context { build, mapping }` from `src/io/ofn/reader/mod.rs`. The
`build` field is value-level trivial (see `buildIRI`), so only the prefix
mapping remains. -/
structure Context where
  mapping : PrefixMapping
deriving DecidableEq, Repr

/-- `IRI::from_pair_unchecked`: dispatch on the inner rule. An
`AbbreviatedIRI` wraps a PNAME node with an optional prefix child and a
local child; it is resolved through the prefix map and interned. A
`FullIRI` wraps the bracketed absolute IRI text, taken verbatim and
interned. -/
def iriFromPair (ctx : Context) (p : Pair) : LResult IRI :=
  match p.children with
  | [] => unwrapPanic
  | inner :: _ =>
    match inner.rule with
    | Rule.AbbreviatedIRI =>
      match inner.children with
      | [] => unwrapPanic
      | pname :: _ =>
        match pname.children with
        | p1 :: p2 :: _ =>
          let pfx := (p1.children.head?).map (fun q => q.str)
          let loc := p2.str
          match ctx.mapping.expandCurie pfx loc with
          | Except.ok s => Except.ok (buildIRI s)
          | Except.error ExpansionError.Invalid =>
              Except.error (LErr.horned (HornedError.invalidAt "undefined prefix" inner.span))
          | Except.error ExpansionError.MissingDefault =>
              Except.error (LErr.horned (HornedError.invalidAt "missing default prefix" inner.span))
        | _ => unwrapPanic
    | Rule.FullIRI =>
      match inner.children with
      | [] => unwrapPanic
      | iriNode :: _ => Except.ok (buildIRI iriNode.str)
    | _ => unreachablePanic "unexpected rule in IRI from_pair"

/-- `impl_wrapper!(Class, Rule::Class)`: lower the single child IRI and
wrap it. -/
def classFromPair (ctx : Context) (p : Pair) : LResult Class :=
  match p.children with
  | [] => unwrapPanic
  | c :: _ => (iriFromPair ctx c).map Class.mk

/-- `impl_wrapper!(Datatype, Rule::Datatype)`. -/
def datatypeFromPair (ctx : Context) (p : Pair) : LResult Datatype :=
  match p.children with
  | [] => unwrapPanic
  | c :: _ => (iriFromPair ctx c).map Datatype.mk

/-- `impl_wrapper!(ObjectProperty, Rule::ObjectProperty)`. -/
def objectPropertyFromPair (ctx : Context) (p : Pair) : LResult ObjectProperty :=
  match p.children with
  | [] => unwrapPanic
  | c :: _ => (iriFromPair ctx c).map ObjectProperty.mk

/-- `impl_wrapper!(DataProperty, Rule::DataProperty)`. -/
def dataPropertyFromPair (ctx : Context) (p : Pair) : LResult DataProperty :=
  match p.children with
  | [] => unwrapPanic
  | c :: _ => (iriFromPair ctx c).map DataProperty.mk

/-- `impl_wrapper!(AnnotationProperty, Rule::AnnotationProperty)`. -/
def annotationPropertyFromPair (ctx : Context) (p : Pair) : LResult AnnotationProperty :=
  match p.children with
  | [] => unwrapPanic
  | c :: _ => (iriFromPair ctx c).map AnnotationProperty.mk

/-- `NamedIndividual::from_pair_unchecked`. -/
def namedIndividualFromPair (ctx : Context) (p : Pair) : LResult NamedIndividual :=
  match p.children with
  | [] => unwrapPanic
  | c :: _ => (iriFromPair ctx c).map NamedIndividual.mk

/-- `Import::from_pair_unchecked` (`impl_wrapper!(Import, Rule::Import)`);
the component wrapper is applied at the insertion site. -/
def importFromPair (ctx : Context) (p : Pair) : LResult IRI :=
  match p.children with
  | [] => unwrapPanic
  | c :: _ => iriFromPair ctx c

/-- `AnonymousIndividual::from_pair_unchecked`: take the nested node-ID
token text (`ctx.build.iri(..)` followed by `.underlying()` is the
identity on the string). -/
def anonymousIndividualFromPair (p : Pair) : LResult AnonymousIndividual :=
  match p.children with
  | [] => unwrapPanic
  | nodeid :: _ =>
    match nodeid.children with
    | [] => unwrapPanic
    | inner :: _ => Except.ok (AnonymousIndividual.mk inner.str)

/-- `Individual::from_pair_unchecked`: dispatch on named vs anonymous. -/
def individualFromPair (ctx : Context) (p : Pair) : LResult Individual :=
  match p.children with
  | [] => unwrapPanic
  | inner :: _ =>
    match inner.rule with
    | Rule.NamedIndividual => (namedIndividualFromPair ctx inner).map Individual.Named
    | Rule.AnonymousIndividual =>
        (anonymousIndividualFromPair inner).map Individual.Anonymous
    | _ => unreachablePanic "unexpected rule in Individual from_pair"

/-- `ObjectPropertyExpression::from_pair_unchecked`. -/
def opeFromPair (ctx : Context) (p : Pair) : LResult ObjectPropertyExpression :=
  match p.children with
  | [] => unwrapPanic
  | inner :: _ =>
    match inner.rule with
    | Rule.ObjectProperty =>
        (objectPropertyFromPair ctx inner).map ObjectPropertyExpression.ObjectProperty
    | Rule.InverseObjectProperty =>
      match inner.children with
      | [] => unwrapPanic
      | c :: _ =>
          (objectPropertyFromPair ctx c).map ObjectPropertyExpression.InverseObjectProperty
    | _ => unreachablePanic "unexpected rule in ObjectPropertyExpression from_pair"

end Horned

/-! ## Quoted strings, integers, literals, annotations -/

namespace Horned

/-- `s.contains(r"\\")`: does the character sequence contain two adjacent
backslashes? (Substring search specialised to the two-character pattern.) -/
def containsBB : List Char → Bool
  | [] => false
  | [_] => false
  | c :: d :: r => if c = '\\' ∧ d = '\\' then true else containsBB (d :: r)

/-- `s.contains(r#"\""#)`: does the character sequence contain a backslash
followed by a double quote? -/
def containsBQ : List Char → Bool
  | [] => false
  | [_] => false
  | c :: d :: r => if c = '\\' ∧ d = '"' then true else containsBQ (d :: r)

/-- `s.replace(r"\\", r"\")`: replace every (leftmost-first,
non-overlapping) occurrence of two backslashes by one backslash. -/
def replaceBB : List Char → List Char
  | [] => []
  | [c] => [c]
  | c :: d :: r => if c = '\\' ∧ d = '\\' then '\\' :: replaceBB r
                   else c :: replaceBB (d :: r)

/-- `s.replace(r#"\""#, r#"""#)`: replace every (leftmost-first,
non-overlapping) occurrence of backslash-quote by a quote. -/
def replaceBQ : List Char → List Char
  | [] => []
  | [c] => [c]
  | c :: d :: r => if c = '\\' ∧ d = '"' then '"' :: replaceBQ r
                   else c :: replaceBQ (d :: r)

/-- `String::from_pair_unchecked` (rule `QuotedString`): strip the
surrounding quotes (`&s[1..l-1]`); if the payload contains an escaped
backslash or an escaped quote, apply the two replacements in source order,
otherwise return the slice as-is. -/
def stringFromPair (p : Pair) : LResult String :=
  let s := ((p.str.data.drop 1).dropLast)
  if containsBB s || containsBQ s then
    Except.ok (String.mk (replaceBQ (replaceBB s)))
  else
    Except.ok (String.mk s)

/-- `u32::from_str` on the matched slice: the decimal value of a nonempty
all-digit string, refused (`Err`) on empty input, on a non-digit, or when
the value exceeds the unsigned 32-bit range. (The source grammar also
never supplies a leading plus sign, which Rust would accept.) -/
def parseU32 (s : String) : Except Unit Nat :=
  if s.data.isEmpty then Except.error ()
  else if s.data.all (fun c => c.isDigit) then
    let n := s.data.foldl (fun a c => a * 10 + (c.toNat - 48)) 0
    if n < 4294967296 then Except.ok n else Except.error ()
  else Except.error ()

/-- `u32::from_pair_unchecked` (rule `NonNegativeInteger`):
`Self::from_str(pair.as_str()).expect("cannot fail with the right rule")` —
a parse failure (in particular, 32-bit overflow) panics instead of
surfacing an `Err`. -/
def u32FromPair (p : Pair) : LResult Nat :=
  match parseU32 p.str with
  | Except.ok n => Except.ok n
  | Except.error _ => Except.error (LErr.panicked "cannot fail with the right rule")

/-- `Literal::from_pair_unchecked`: dispatch on the inner rule; a nested
`Literal` redirection is followed transparently (`Self::from_pair` on the
nested node: the release-mode rule check is skipped, landing back in this
function one level deeper). -/
def literalFromPair (ctx : Context) : Pair → LResult Literal
  | Pair.mk _ _ _ [] => unwrapPanic
  | Pair.mk _ _ _ (q :: _) =>
    match q with
    | Pair.mk Rule.Literal _ _ [] => unwrapPanic
    | Pair.mk Rule.Literal _ _ (x :: _) => literalFromPair ctx x
    | Pair.mk Rule.TypedLiteral _ _ (qs :: dt :: _) => do
        let literal ← stringFromPair qs
        let dty ← datatypeFromPair ctx dt
        Except.ok (Literal.Datatype literal dty.iri)
    | Pair.mk Rule.TypedLiteral _ _ _ => unwrapPanic
    | Pair.mk Rule.StringLiteralWithLanguage _ _ (qs :: lt :: _) => do
        let literal ← stringFromPair qs
        let lang := (lt.str.drop 1).trim
        Except.ok (Literal.Language literal lang)
    | Pair.mk Rule.StringLiteralWithLanguage _ _ _ => unwrapPanic
    | Pair.mk Rule.StringLiteralNoLanguage _ _ (qs :: _) => do
        let literal ← stringFromPair qs
        Except.ok (Literal.Simple literal)
    | Pair.mk Rule.StringLiteralNoLanguage _ _ [] => unwrapPanic
    | Pair.mk _ _ _ _ => unreachablePanic "unexpected rule in Literal from_pair"

/-- `AnnotationValue::from_pair_unchecked`. -/
def annotationValueFromPair (ctx : Context) (p : Pair) : LResult AnnotationValue :=
  match p.children with
  | [] => unwrapPanic
  | inner :: _ =>
    match inner.rule with
    | Rule.IRI => (iriFromPair ctx inner).map AnnotationValue.IRI
    | Rule.Literal => (literalFromPair ctx inner).map AnnotationValue.Literal
    | Rule.AnonymousIndividual =>
        (anonymousIndividualFromPair inner).map AnnotationValue.AnonymousIndividual
    | _ => unreachablePanic "unexpected rule in AnnotationValue from_pair"

mutual
/-- `Annotation::from_pair_unchecked`: read (and discard) the nested
annotation set, then the property and the value. -/
def annotFromPair (ctx : Context) : Pair → LResult Annot
  | Pair.mk _ _ _ (Pair.mk _ _ _ annKids :: app :: avp :: _) => do
      let _nested ← annotListFromPair ctx annKids
      let ap ← annotationPropertyFromPair ctx app
      let av ← annotationValueFromPair ctx avp
      Except.ok (Annot.mk ap av)
  | _ => unwrapPanic

/-- Lower a sequence of `Annotation` children in order. -/
def annotListFromPair (ctx : Context) : List Pair → LResult (List Annot)
  | [] => Except.ok []
  | q :: t => do
    let a ← annotFromPair ctx q
    let r ← annotListFromPair ctx t
    Except.ok (a :: r)
end

/-- `BTreeSet::<Annotation>::from_pair_unchecked` (rule `Annotations`):
collect the lowered annotations into the set. -/
def annotSetFromPair (ctx : Context) (p : Pair) : LResult (Finset Annot) :=
  (annotListFromPair ctx p.children).map
    (fun l => l.foldl (fun s a => insert a s) ∅)

end Horned

/-! ## Data ranges and class expressions -/

namespace Horned

/-- `Facet::from_pair_unchecked` (rule `ConstrainingFacet`): lower the
inner IRI, then match it against the closed facet set; an unknown IRI is
`invalid facet` with the span of the IRI node. -/
def facetFromPair (ctx : Context) (p : Pair) : LResult Facet :=
  match p.children with
  | [] => unwrapPanic
  | inner :: _ => do
    let iri ← iriFromPair ctx inner
    match Facet.all.find? (fun f => iri.str == f.iriStr) with
    | some f => Except.ok f
    | none => Except.error (LErr.horned (HornedError.invalidAt "invalid facet" inner.span))

/-- `FacetRestriction::from_pair_unchecked`: a facet and a literal. -/
def facetRestrictionFromPair (ctx : Context) (p : Pair) : LResult FacetRestrictionT :=
  match p.children with
  | fp :: lp :: _ => do
    let f ← facetFromPair ctx fp
    let l ← literalFromPair ctx lp
    Except.ok (FacetRestrictionT.mk f l)
  | _ => unwrapPanic

/-- Lower a sequence of `Literal` children in order (`DataOneOf`). -/
def literalListFromPair (ctx : Context) : List Pair → LResult (List Literal)
  | [] => Except.ok []
  | q :: t => do
    let l ← literalFromPair ctx q
    let r ← literalListFromPair ctx t
    Except.ok (l :: r)

/-- Lower a sequence of `FacetRestriction` children in order
(`DatatypeRestriction`). -/
def facetRestrictionListFromPair (ctx : Context) :
    List Pair → LResult (List FacetRestrictionT)
  | [] => Except.ok []
  | q :: t => do
    let f ← facetRestrictionFromPair ctx q
    let r ← facetRestrictionListFromPair ctx t
    Except.ok (f :: r)

mutual
/-- `DataRange::from_pair_unchecked`: a switch over the inner rule,
parallel to class expressions (spec §4.E.10). -/
def drFromPair (ctx : Context) : Pair → LResult DataRange
  | Pair.mk _ _ _ [] => unwrapPanic
  | Pair.mk _ _ _ (inner :: _) =>
    match inner with
    | Pair.mk Rule.Datatype _ _ _ => (datatypeFromPair ctx inner).map DataRange.Datatype
    | Pair.mk Rule.DataIntersectionOf _ _ kids =>
        (drListFromPair ctx kids).map DataRange.DataIntersectionOf
    | Pair.mk Rule.DataUnionOf _ _ kids =>
        (drListFromPair ctx kids).map DataRange.DataUnionOf
    | Pair.mk Rule.DataComplementOf _ _ [] => unwrapPanic
    | Pair.mk Rule.DataComplementOf _ _ (x :: _) =>
        (drFromPair ctx x).map DataRange.DataComplementOf
    | Pair.mk Rule.DataOneOf _ _ kids =>
        (literalListFromPair ctx kids).map DataRange.DataOneOf
    | Pair.mk Rule.DatatypeRestriction _ _ [] => unwrapPanic
    | Pair.mk Rule.DatatypeRestriction _ _ (dt :: rest) => do
        let d ← datatypeFromPair ctx dt
        let fs ← facetRestrictionListFromPair ctx rest
        Except.ok (DataRange.DatatypeRestriction d fs)
    | Pair.mk _ _ _ _ => unreachablePanic "unexpected rule in DataRange from_pair"

/-- Lower a sequence of `DataRange` children in order. -/
def drListFromPair (ctx : Context) : List Pair → LResult DataRangeList
  | [] => Except.ok DataRangeList.nil
  | q :: t => do
    let d ← drFromPair ctx q
    let r ← drListFromPair ctx t
    Except.ok (DataRangeList.cons d r)
end

mutual
/-- `ClassExpression::from_pair_unchecked`: a switch over the inner rule
(spec §4.E.9). The two defaulting families materialize `owl:Thing` /
`rdfs:Literal` when the optional third operand is absent
(`impl_ce_obj_cardinality!` / `impl_ce_data_cardinality!`). The data
quantifiers reject a data-property chain by panicking (`unimplemented!()`
with the replacement `Err` left in comments in the source). -/
def ceFromPair (ctx : Context) : Pair → LResult ClassExpression
  | Pair.mk _ _ _ [] => unwrapPanic
  | Pair.mk _ _ _ (inner :: _) =>
    match inner with
    | Pair.mk Rule.Class _ _ _ => (classFromPair ctx inner).map ClassExpression.Class
    | Pair.mk Rule.ObjectIntersectionOf _ _ kids =>
        (ceListFromPair ctx kids).map ClassExpression.ObjectIntersectionOf
    | Pair.mk Rule.ObjectUnionOf _ _ kids =>
        (ceListFromPair ctx kids).map ClassExpression.ObjectUnionOf
    | Pair.mk Rule.ObjectComplementOf _ _ [] => unwrapPanic
    | Pair.mk Rule.ObjectComplementOf _ _ (x :: _) =>
        (ceFromPair ctx x).map ClassExpression.ObjectComplementOf
    | Pair.mk Rule.ObjectOneOf _ _ kids =>
        (individualListFromPair ctx kids).map ClassExpression.ObjectOneOf
    | Pair.mk Rule.ObjectSomeValuesFrom _ _ (opep :: cep :: _) => do
        let ope ← opeFromPair ctx opep
        let bce ← ceFromPair ctx cep
        Except.ok (ClassExpression.ObjectSomeValuesFrom ope bce)
    | Pair.mk Rule.ObjectSomeValuesFrom _ _ _ => unwrapPanic
    | Pair.mk Rule.ObjectAllValuesFrom _ _ (opep :: cep :: _) => do
        let ope ← opeFromPair ctx opep
        let bce ← ceFromPair ctx cep
        Except.ok (ClassExpression.ObjectAllValuesFrom ope bce)
    | Pair.mk Rule.ObjectAllValuesFrom _ _ _ => unwrapPanic
    | Pair.mk Rule.ObjectHasValue _ _ (opep :: ip :: _) => do
        let ope ← opeFromPair ctx opep
        let i ← individualFromPair ctx ip
        Except.ok (ClassExpression.ObjectHasValue ope i)
    | Pair.mk Rule.ObjectHasValue _ _ _ => unwrapPanic
    | Pair.mk Rule.ObjectHasSelf _ _ [] => unwrapPanic
    | Pair.mk Rule.ObjectHasSelf _ _ (opep :: _) =>
        (opeFromPair ctx opep).map ClassExpression.ObjectHasSelf
    | Pair.mk Rule.ObjectMinCardinality _ _ (np :: opep :: rest) => do
        let n ← u32FromPair np
        let ope ← opeFromPair ctx opep
        let bce ← match rest with
          | x :: _ => ceFromPair ctx x
          | [] => Except.ok (ClassExpression.Class (Class.mk (buildIRI owlThingIRIStr)))
        Except.ok (ClassExpression.ObjectMinCardinality n ope bce)
    | Pair.mk Rule.ObjectMinCardinality _ _ _ => unwrapPanic
    | Pair.mk Rule.ObjectMaxCardinality _ _ (np :: opep :: rest) => do
        let n ← u32FromPair np
        let ope ← opeFromPair ctx opep
        let bce ← match rest with
          | x :: _ => ceFromPair ctx x
          | [] => Except.ok (ClassExpression.Class (Class.mk (buildIRI owlThingIRIStr)))
        Except.ok (ClassExpression.ObjectMaxCardinality n ope bce)
    | Pair.mk Rule.ObjectMaxCardinality _ _ _ => unwrapPanic
    | Pair.mk Rule.ObjectExactCardinality _ _ (np :: opep :: rest) => do
        let n ← u32FromPair np
        let ope ← opeFromPair ctx opep
        let bce ← match rest with
          | x :: _ => ceFromPair ctx x
          | [] => Except.ok (ClassExpression.Class (Class.mk (buildIRI owlThingIRIStr)))
        Except.ok (ClassExpression.ObjectExactCardinality n ope bce)
    | Pair.mk Rule.ObjectExactCardinality _ _ _ => unwrapPanic
    | Pair.mk Rule.DataSomeValuesFrom _ _ (dpp :: next :: _) => do
        let dp ← dataPropertyFromPair ctx dpp
        if next.rule == Rule.DataProperty then
          Except.error (LErr.panicked "not implemented")
        else do
          let dr ← drFromPair ctx next
          Except.ok (ClassExpression.DataSomeValuesFrom dp dr)
    | Pair.mk Rule.DataSomeValuesFrom _ _ _ => unwrapPanic
    | Pair.mk Rule.DataAllValuesFrom _ _ (dpp :: next :: _) => do
        let dp ← dataPropertyFromPair ctx dpp
        if next.rule == Rule.DataProperty then
          Except.error (LErr.panicked "not implemented")
        else do
          let dr ← drFromPair ctx next
          Except.ok (ClassExpression.DataAllValuesFrom dp dr)
    | Pair.mk Rule.DataAllValuesFrom _ _ _ => unwrapPanic
    | Pair.mk Rule.DataHasValue _ _ (dpp :: lp :: _) => do
        let dp ← dataPropertyFromPair ctx dpp
        let l ← literalFromPair ctx lp
        Except.ok (ClassExpression.DataHasValue dp l)
    | Pair.mk Rule.DataHasValue _ _ _ => unwrapPanic
    | Pair.mk Rule.DataMinCardinality _ _ (np :: dpp :: rest) => do
        let n ← u32FromPair np
        let dp ← dataPropertyFromPair ctx dpp
        let dr ← match rest with
          | x :: _ => drFromPair ctx x
          | [] => Except.ok (DataRange.Datatype (Datatype.mk (buildIRI rdfsLiteralIRIStr)))
        Except.ok (ClassExpression.DataMinCardinality n dp dr)
    | Pair.mk Rule.DataMinCardinality _ _ _ => unwrapPanic
    | Pair.mk Rule.DataMaxCardinality _ _ (np :: dpp :: rest) => do
        let n ← u32FromPair np
        let dp ← dataPropertyFromPair ctx dpp
        let dr ← match rest with
          | x :: _ => drFromPair ctx x
          | [] => Except.ok (DataRange.Datatype (Datatype.mk (buildIRI rdfsLiteralIRIStr)))
        Except.ok (ClassExpression.DataMaxCardinality n dp dr)
    | Pair.mk Rule.DataMaxCardinality _ _ _ => unwrapPanic
    | Pair.mk Rule.DataExactCardinality _ _ (np :: dpp :: rest) => do
        let n ← u32FromPair np
        let dp ← dataPropertyFromPair ctx dpp
        let dr ← match rest with
          | x :: _ => drFromPair ctx x
          | [] => Except.ok (DataRange.Datatype (Datatype.mk (buildIRI rdfsLiteralIRIStr)))
        Except.ok (ClassExpression.DataExactCardinality n dp dr)
    | Pair.mk Rule.DataExactCardinality _ _ _ => unwrapPanic
    | Pair.mk _ _ _ _ => unreachablePanic "unexpected rule in ClassExpression from_pair"

/-- Lower a sequence of `ClassExpression` children in order. -/
def ceListFromPair (ctx : Context) : List Pair → LResult ClassExpressionList
  | [] => Except.ok ClassExpressionList.nil
  | q :: t => do
    let c ← ceFromPair ctx q
    let r ← ceListFromPair ctx t
    Except.ok (ClassExpressionList.cons c r)

/-- Lower a sequence of `Individual` children in order (`ObjectOneOf`). -/
def individualListFromPair (ctx : Context) : List Pair → LResult (List Individual)
  | [] => Except.ok []
  | q :: t => do
    let i ← individualFromPair ctx q
    let r ← individualListFromPair ctx t
    Except.ok (i :: r)
end

end Horned

/-! ## Axiom lowering and the ontology loop -/

namespace Horned

/-- `impl_wrapper!(DeclareClass, Rule::ClassDeclaration)`. -/
def declareClassFromPair (ctx : Context) (p : Pair) : LResult Component :=
  match p.children with
  | [] => unwrapPanic
  | c :: _ => (classFromPair ctx c).map Component.DeclareClass

/-- `impl_wrapper!(DeclareDatatype, Rule::DatatypeDeclaration)`. -/
def declareDatatypeFromPair (ctx : Context) (p : Pair) : LResult Component :=
  match p.children with
  | [] => unwrapPanic
  | c :: _ => (datatypeFromPair ctx c).map Component.DeclareDatatype

/-- `impl_wrapper!(DeclareObjectProperty, Rule::ObjectPropertyDeclaration)`. -/
def declareObjectPropertyFromPair (ctx : Context) (p : Pair) : LResult Component :=
  match p.children with
  | [] => unwrapPanic
  | c :: _ => (objectPropertyFromPair ctx c).map Component.DeclareObjectProperty

/-- `impl_wrapper!(DeclareDataProperty, Rule::DataPropertyDeclaration)`. -/
def declareDataPropertyFromPair (ctx : Context) (p : Pair) : LResult Component :=
  match p.children with
  | [] => unwrapPanic
  | c :: _ => (dataPropertyFromPair ctx c).map Component.DeclareDataProperty

/-- `impl_wrapper!(DeclareAnnotationProperty, Rule::AnnotationPropertyDeclaration)`. -/
def declareAnnotationPropertyFromPair (ctx : Context) (p : Pair) : LResult Component :=
  match p.children with
  | [] => unwrapPanic
  | c :: _ => (annotationPropertyFromPair ctx c).map Component.DeclareAnnotationProperty

/-- `impl_wrapper!(DeclareNamedIndividual, Rule::NamedIndividualDeclaration)`. -/
def declareNamedIndividualFromPair (ctx : Context) (p : Pair) : LResult Component :=
  match p.children with
  | [] => unwrapPanic
  | c :: _ => (namedIndividualFromPair ctx c).map Component.DeclareNamedIndividual

/-- `AnnotatedComponent::from_pair_unchecked` (rule `Axiom`): dispatch on
the inner rule. Every arm first lowers the leading annotations child, then
the axiom-specific operands, and wraps the component with the annotation
set. The embedded arms are the declarations and the class axioms; the
remaining source arms are structurally identical and fall to the final
catch-all, which in the source is `unreachable!` for rules outside the
axiom vocabulary. Notable arm: `SubClassOf` reads the surface operands in
order (sub, sup) and builds `SubClassOf::new(supercls, subcls)`, i.e. the
stored order is `(superclass, subclass)`. -/
def annotatedComponentFromPair (ctx : Context) (p : Pair) : LResult AnnotatedComponent :=
  match p.children with
  | [] => unwrapPanic
  | pair :: _ =>
    match pair.rule with
    | Rule.Declaration =>
      match pair.children with
      | annp :: declWrap :: _ => do
        let ann ← annotSetFromPair ctx annp
        match declWrap.children with
        | [] => unwrapPanic
        | decl :: _ => do
          let component ←
            match decl.rule with
            | Rule.ClassDeclaration => declareClassFromPair ctx decl
            | Rule.DatatypeDeclaration => declareDatatypeFromPair ctx decl
            | Rule.ObjectPropertyDeclaration => declareObjectPropertyFromPair ctx decl
            | Rule.DataPropertyDeclaration => declareDataPropertyFromPair ctx decl
            | Rule.AnnotationPropertyDeclaration => declareAnnotationPropertyFromPair ctx decl
            | Rule.NamedIndividualDeclaration => declareNamedIndividualFromPair ctx decl
            | _ => unreachablePanic "unexpected rule in AnnotatedComponent Declaration"
          Except.ok (AnnotatedComponent.mk component ann)
      | _ => unwrapPanic
    | Rule.SubClassOf =>
      match pair.children with
      | annp :: subp :: supp :: _ => do
        let anns ← annotSetFromPair ctx annp
        let subcls ← ceFromPair ctx subp
        let supercls ← ceFromPair ctx supp
        Except.ok (AnnotatedComponent.mk (Component.SubClassOf supercls subcls) anns)
      | _ => unwrapPanic
    | Rule.EquivalentClasses =>
      match pair.children with
      | annp :: rest => do
        let anns ← annotSetFromPair ctx annp
        let ce ← ceListFromPair ctx rest
        Except.ok (AnnotatedComponent.mk (Component.EquivalentClasses ce) anns)
      | [] => unwrapPanic
    | Rule.DisjointClasses =>
      match pair.children with
      | annp :: rest => do
        let anns ← annotSetFromPair ctx annp
        let ce ← ceListFromPair ctx rest
        Except.ok (AnnotatedComponent.mk (Component.DisjointClasses ce) anns)
      | [] => unwrapPanic
    | Rule.ClassAssertion =>
      match pair.children with
      | annp :: cep :: ip :: _ => do
        let anns ← annotSetFromPair ctx annp
        let ce ← ceFromPair ctx cep
        let i ← individualFromPair ctx ip
        Except.ok (AnnotatedComponent.mk (Component.ClassAssertion ce i) anns)
      | _ => unwrapPanic
    | _ => unreachablePanic "unexpected rule in AnnotatedComponent from_pair"

/-- `SetOntology`: the ontology as the sequence of inserted components
(`BTreeSet` modelled by insertion order; two lowerings that perform the
same insertions produce the same value). -/
structure SetOntology where
  components : List AnnotatedComponent
deriving DecidableEq

/-- `MutableOntology::insert` on `SetOntology`; header components are
wrapped with an empty annotation set by their `Into<AnnotatedComponent>`
conversions. -/
def SetOntology.insert (o : SetOntology) (c : AnnotatedComponent) : SetOntology :=
  SetOntology.mk (o.components ++ [c])

/-- The header phase of `SetOntology::from_pair_unchecked`: consume an
optional `OntologyIRI` and then an optional `VersionIRI`, returning the
ontology id, the pair left in the cursor (the imports block), and the
remaining pairs. -/
def ontologyIDPhase (ctx : Context) (first : Pair) (rest : List Pair) :
    LResult (OntologyID × Pair × List Pair) :=
  if first.rule == Rule.OntologyIRI then
    match first.children with
    | [] => unwrapPanic
    | inner :: _ => do
      let i ← iriFromPair ctx inner
      match rest with
      | [] => unwrapPanic
      | second :: rest2 =>
        if second.rule == Rule.VersionIRI then
          match second.children with
          | [] => unwrapPanic
          | inner2 :: _ => do
            let v ← iriFromPair ctx inner2
            match rest2 with
            | [] => unwrapPanic
            | third :: rest3 => Except.ok (OntologyID.mk (some i) (some v), third, rest3)
        else Except.ok (OntologyID.mk (some i) none, second, rest2)
  else Except.ok (OntologyID.mk none none, first, rest)

/-- One iteration of the axiom loop of `SetOntology::from_pair_unchecked`:
SWRL `Rule` and `DGAxiom` children are recognized and dropped; `Axiom`
children are lowered and inserted; anything else is `unreachable!`. -/
def axiomItemStep (ctx : Context) (o : SetOntology) (q : Pair) : LResult SetOntology :=
  match q.children with
  | [] => unwrapPanic
  | inner :: _ =>
    match inner.rule with
    | Rule.Rule => Except.ok o
    | Rule.DGAxiom => Except.ok o
    | Rule.Axiom => do
      let c ← annotatedComponentFromPair ctx inner
      Except.ok (o.insert c)
    | _ => unreachablePanic "unexpected rule in Ontology from_pair"

/-- The imports phase: insert an `Import` for every child of the imports
block, in order. -/
def importsPhase (ctx : Context) (block : Pair) (o : SetOntology) :
    LResult SetOntology :=
  block.children.foldlM (fun acc q => do
    let i ← importFromPair ctx q
    Except.ok (acc.insert (AnnotatedComponent.mk (Component.Import i) ∅))) o

/-- The ontology-annotations phase: insert an `OntologyAnnotation` for
every child of the annotations block, in order. -/
def ontologyAnnotationsPhase (ctx : Context) (block : Pair) (o : SetOntology) :
    LResult SetOntology :=
  block.children.foldlM (fun acc q => do
    let a ← annotFromPair ctx q
    Except.ok (acc.insert (AnnotatedComponent.mk (Component.OntologyAnnot a) ∅))) o

/-- The axioms phase: fold the axiom loop over the axiom-block children. -/
def axiomsPhase (ctx : Context) (block : Pair) (o : SetOntology) :
    LResult SetOntology :=
  block.children.foldlM (axiomItemStep ctx) o

/-- `SetOntology::from_pair_unchecked` (`impl_ontology!`, rule `Ontology`):
optional ontology IRI and version IRI, then the inserted ontology id, the
imports block, the ontology-annotations block, and the axiom block with
SWRL rules dropped. -/
def setOntologyFromPair (ctx : Context) (p : Pair) : LResult SetOntology :=
  match p.children with
  | [] => unwrapPanic
  | first :: rest => do
    let phase1 ← ontologyIDPhase ctx first rest
    let oid := phase1.fst
    let importsBlock := phase1.snd.fst
    let pairs2 := phase1.snd.snd
    let o1 := (SetOntology.mk []).insert (AnnotatedComponent.mk (Component.OntologyID oid) ∅)
    let o2 ← importsPhase ctx importsBlock o1
    match pairs2 with
    | [] => unwrapPanic
    | annBlock :: pairs3 => do
      let o3 ← ontologyAnnotationsPhase ctx annBlock o2
      match pairs3 with
      | [] => unwrapPanic
      | axBlock :: _ => axiomsPhase ctx axBlock o3

end Horned

/-! ## C7: IRI interning and equality -/

namespace OldModel

/-- The interning call always returns the IRI of its argument string:
either the cache already holds an equal IRI (and `find?` returns exactly
an equal one), or the fresh IRI is returned. -/
theorem IRIBuild.iri_fst (b : IRIBuild) (s : String) :
    (b.iri s).fst = IRI.mk s := by
  unfold IRIBuild.iri
  cases h : b.cache.find? (fun j => j == IRI.mk s) with
  | none => simp [h]
  | some j =>
      have hj := List.find?_some h
      simp only [beq_iff_eq] at hj
      simp [h, hj]

/-- Claim C7: two IRIs compare equal iff their underlying strings are
equal; `s.iri x = s.iri y` whenever `x = y` — including across two
different stores — and a repeated call on the store returned by a previous
call gives a structurally identical IRI. -/
theorem c7_iri_interning :
    (∀ i j : IRI, i = j ↔ i.str = j.str) ∧
    (∀ (s t : IRIBuild) (x y : String), x = y →
        (s.iri x).fst = (t.iri y).fst) ∧
    (∀ (s : IRIBuild) (x : String),
        (((s.iri x).snd).iri x).fst = (s.iri x).fst) := by
  refine ⟨?_, ?_, ?_⟩
  · intro i j
    constructor
    · intro h; rw [h]
    · intro h; cases i; cases j; simpa using h
  · intro s t x y hxy
    subst hxy
    rw [IRIBuild.iri_fst, IRIBuild.iri_fst]
  · intro s x
    rw [IRIBuild.iri_fst, IRIBuild.iri_fst]

/-- Witness for C7 at concrete stores and strings: one empty store, one
store already holding the IRI, equal input strings. -/
theorem c7_iri_interning_witness :
    ("http://www.example.com" = "http://www.example.com") ∧
    ((IRIBuild.mk []).iri "http://www.example.com").fst =
      ((IRIBuild.mk [IRI.mk "http://www.example.com"]).iri "http://www.example.com").fst :=
  ⟨rfl, c7_iri_interning.2.1 (IRIBuild.mk [])
    (IRIBuild.mk [IRI.mk "http://www.example.com"])
    "http://www.example.com" "http://www.example.com" rfl⟩

end OldModel

/-! ## C10: the subclass query is syntactic membership -/

namespace OldModel

/-- Membership characterization of `is_subclass_exp`. -/
theorem is_subclass_exp_iff_mem (o : Ontology) (a b : ClassExpression) :
    o.is_subclass_exp a b = true ↔ SubClass.mk a b ∈ o.subclass := by
  unfold Ontology.is_subclass_exp
  rw [List.find?_isSome]
  constructor
  · rintro ⟨sc, hm, hp⟩
    simp only [Bool.and_eq_true, beq_iff_eq] at hp
    cases sc
    cases hp.1
    cases hp.2
    exact hm
  · intro hm
    exact ⟨SubClass.mk a b, hm, by simp⟩

/-- Claim C10: `is_subclass_exp o a b` holds iff the exact pair
`SubClass { superclass := a, subclass := b }` is stored; a pair just
inserted through `subclass_exp` is found; and the query is not transitive:
after inserting (sup, sub) and (sub, subsub) into a fresh ontology,
`is_subclass sup subsub` is false for distinct classes. -/
theorem c10_is_subclass_syntactic :
    (∀ (o : Ontology) (a b : ClassExpression),
       o.is_subclass_exp a b = true ↔ SubClass.mk a b ∈ o.subclass) ∧
    (∀ (o : Ontology) (a b : ClassExpression),
       ((o.subclass_exp a b).snd).is_subclass_exp a b = true) ∧
    (∀ sup sub subsub : Class, sup ≠ sub → sub ≠ subsub →
       ((((Ontology.new.addSubclass sup sub).snd).addSubclass sub subsub).snd).is_subclass
         sup subsub = false) := by
  refine ⟨is_subclass_exp_iff_mem, ?_, ?_⟩
  · intro o a b
    rw [is_subclass_exp_iff_mem]
    by_cases h : SubClass.mk a b ∈ o.subclass
    · simp only [Ontology.subclass_exp, if_pos h]
      exact h
    · simp only [Ontology.subclass_exp, if_neg h]
      exact List.mem_cons_self _ _
  · intro sup sub subsub hss hsb
    have s2 : ((((Ontology.new.addSubclass sup sub).snd).addSubclass sub subsub).snd).subclass
        = [SubClass.mk (ClassExpression.Class sub) (ClassExpression.Class subsub),
           SubClass.mk (ClassExpression.Class sup) (ClassExpression.Class sub)] := by
      simp only [Ontology.addSubclass, Ontology.subclass_exp, Ontology.new,
        List.not_mem_nil, if_false, List.mem_singleton, SubClass.mk.injEq,
        ClassExpression.Class.injEq, Ne.symm hss, false_and, if_false]
    simp only [Ontology.is_subclass]
    rw [Bool.eq_false_iff]
    intro htrue
    have hm := (is_subclass_exp_iff_mem _ _ _).mp htrue
    rw [s2] at hm
    simp only [List.mem_cons, List.mem_singleton, SubClass.mk.injEq,
      ClassExpression.Class.injEq, List.not_mem_nil, or_false] at hm
    rcases hm with ⟨h, _⟩ | ⟨_, h⟩
    · exact hss h
    · exact hsb h.symm

/-- Witness for C10 at three concrete distinct classes. -/
theorem c10_is_subclass_syntactic_witness :
    (Class.mk (IRI.mk "http://www.example.com/super") ≠
       Class.mk (IRI.mk "http://www.example.com/sub")) ∧
    (Class.mk (IRI.mk "http://www.example.com/sub") ≠
       Class.mk (IRI.mk "http://www.example.com/subsub")) ∧
    ((((Ontology.new.addSubclass (Class.mk (IRI.mk "http://www.example.com/super"))
          (Class.mk (IRI.mk "http://www.example.com/sub"))).snd).addSubclass
            (Class.mk (IRI.mk "http://www.example.com/sub"))
            (Class.mk (IRI.mk "http://www.example.com/subsub"))).snd).is_subclass
      (Class.mk (IRI.mk "http://www.example.com/super"))
      (Class.mk (IRI.mk "http://www.example.com/subsub")) = false :=
  ⟨by decide, by decide,
    c10_is_subclass_syntactic.2.2 _ _ _ (by decide) (by decide)⟩

end OldModel

/-! ## C3: non-negative integer lowering panics on 32-bit overflow -/

namespace Horned

/-- Claim C3 (code bug): on the ten-digit string 4294967296 = 2^32, which
exceeds the unsigned 32-bit range, `u32::from_pair` panics through
`.expect(..)` instead of surfacing a parse `Err` to the caller; an
in-range digit string is parsed to its decimal value. -/
theorem c3_u32_overflow_panics :
    u32FromPair (Pair.mk Rule.NonNegativeInteger "4294967296" 0 [])
      = Except.error (LErr.panicked "cannot fail with the right rule") ∧
    u32FromPair (Pair.mk Rule.NonNegativeInteger "4294967295" 0 [])
      = Except.ok 4294967295 := by
  exact ⟨rfl, rfl⟩

end Horned

/-! ## C4: data-property chains in data quantifiers panic -/

namespace Horned

/-- A closed sample data-property node (for concrete evaluations). -/
def sampleDPPair (s : String) (sp : Nat) : Pair :=
  Pair.mk Rule.DataProperty "" sp
    [Pair.mk Rule.IRI "" sp
      [Pair.mk Rule.FullIRI "" sp [Pair.mk Rule.NodeID s sp []]]]

/-- An empty-prefix parse context (for concrete evaluations). -/
def sampleContext : Context := Context.mk (PrefixMapping.mk none [])

/-- Claim C4 (code bug): a `DataSomeValuesFrom` / `DataAllValuesFrom`
parse node whose second operand is another `DataProperty` (a data-property
chain) makes the lowering panic through `unimplemented!()`; no
`UnsupportedConstruct` error value is returned to the caller. -/
theorem c4_data_chain_panics :
    ceFromPair sampleContext
      (Pair.mk Rule.ClassExpression "" 0
        [Pair.mk Rule.DataSomeValuesFrom "" 0
          [sampleDPPair "http://www.example.com/dp1" 1,
           sampleDPPair "http://www.example.com/dp2" 2]])
      = Except.error (LErr.panicked "not implemented") ∧
    ceFromPair sampleContext
      (Pair.mk Rule.DataAllValuesFrom "" 0
        [Pair.mk Rule.DataAllValuesFrom "" 0
          [sampleDPPair "http://www.example.com/dp1" 1,
           sampleDPPair "http://www.example.com/dp2" 2]])
      = Except.error (LErr.panicked "not implemented") := by
  exact ⟨rfl, rfl⟩

end Horned

/-! ## C2: cardinality restrictions materialize their defaults -/

namespace Horned

/-- Bind on an `ok` result reduces to the continuation. -/
theorem lresult_bind_ok {a : Type} {b : Type} (x : a) (f : a → LResult b) :
    (Except.ok x : LResult a) >>= f = f x := rfl

/-- Bind on an error propagates the error (`?` on `Err`). -/
theorem lresult_bind_error {a : Type} {b : Type} (e : LErr) (f : a → LResult b) :
    (Except.error e : LResult a) >>= f = Except.error e := rfl

/-- Claim C2: a two-child `Object{Min,Max,Exact}Cardinality` parse node
lowers with `ClassExpression::Class(owl:Thing)` materialized as the
filler, and a two-child `Data{Min,Max,Exact}Cardinality` parse node lowers
with `DataRange::Datatype(rdfs:Literal)` materialized as the range —
whenever the two present operands lower successfully. -/
theorem c2_cardinality_defaults (ctx : Context) (s s2 : String) (sp sp2 : Nat)
    (np opep dpp : Pair) (n : Nat) (ope : ObjectPropertyExpression)
    (dp : DataProperty)
    (hn : u32FromPair np = Except.ok n)
    (hope : opeFromPair ctx opep = Except.ok ope)
    (hdp : dataPropertyFromPair ctx dpp = Except.ok dp) :
    ceFromPair ctx (Pair.mk Rule.ClassExpression s sp
        [Pair.mk Rule.ObjectMinCardinality s2 sp2 [np, opep]])
      = Except.ok (ClassExpression.ObjectMinCardinality n ope
          (ClassExpression.Class (Class.mk (buildIRI owlThingIRIStr)))) ∧
    ceFromPair ctx (Pair.mk Rule.ClassExpression s sp
        [Pair.mk Rule.ObjectMaxCardinality s2 sp2 [np, opep]])
      = Except.ok (ClassExpression.ObjectMaxCardinality n ope
          (ClassExpression.Class (Class.mk (buildIRI owlThingIRIStr)))) ∧
    ceFromPair ctx (Pair.mk Rule.ClassExpression s sp
        [Pair.mk Rule.ObjectExactCardinality s2 sp2 [np, opep]])
      = Except.ok (ClassExpression.ObjectExactCardinality n ope
          (ClassExpression.Class (Class.mk (buildIRI owlThingIRIStr)))) ∧
    ceFromPair ctx (Pair.mk Rule.ClassExpression s sp
        [Pair.mk Rule.DataMinCardinality s2 sp2 [np, dpp]])
      = Except.ok (ClassExpression.DataMinCardinality n dp
          (DataRange.Datatype (Datatype.mk (buildIRI rdfsLiteralIRIStr)))) ∧
    ceFromPair ctx (Pair.mk Rule.ClassExpression s sp
        [Pair.mk Rule.DataMaxCardinality s2 sp2 [np, dpp]])
      = Except.ok (ClassExpression.DataMaxCardinality n dp
          (DataRange.Datatype (Datatype.mk (buildIRI rdfsLiteralIRIStr)))) ∧
    ceFromPair ctx (Pair.mk Rule.ClassExpression s sp
        [Pair.mk Rule.DataExactCardinality s2 sp2 [np, dpp]])
      = Except.ok (ClassExpression.DataExactCardinality n dp
          (DataRange.Datatype (Datatype.mk (buildIRI rdfsLiteralIRIStr)))) := by
  refine ⟨?_, ?_, ?_, ?_, ?_, ?_⟩
  · have e : ceFromPair ctx (Pair.mk Rule.ClassExpression s sp
        [Pair.mk Rule.ObjectMinCardinality s2 sp2 [np, opep]])
      = (u32FromPair np >>= fun m =>
          opeFromPair ctx opep >>= fun o =>
          (Except.ok (ClassExpression.Class (Class.mk (buildIRI owlThingIRIStr)))
             : LResult ClassExpression) >>= fun bce =>
          Except.ok (ClassExpression.ObjectMinCardinality m o bce)) := rfl
    rw [e, hn]
    simp only [lresult_bind_ok, hope]
  · have e : ceFromPair ctx (Pair.mk Rule.ClassExpression s sp
        [Pair.mk Rule.ObjectMaxCardinality s2 sp2 [np, opep]])
      = (u32FromPair np >>= fun m =>
          opeFromPair ctx opep >>= fun o =>
          (Except.ok (ClassExpression.Class (Class.mk (buildIRI owlThingIRIStr)))
             : LResult ClassExpression) >>= fun bce =>
          Except.ok (ClassExpression.ObjectMaxCardinality m o bce)) := rfl
    rw [e, hn]
    simp only [lresult_bind_ok, hope]
  · have e : ceFromPair ctx (Pair.mk Rule.ClassExpression s sp
        [Pair.mk Rule.ObjectExactCardinality s2 sp2 [np, opep]])
      = (u32FromPair np >>= fun m =>
          opeFromPair ctx opep >>= fun o =>
          (Except.ok (ClassExpression.Class (Class.mk (buildIRI owlThingIRIStr)))
             : LResult ClassExpression) >>= fun bce =>
          Except.ok (ClassExpression.ObjectExactCardinality m o bce)) := rfl
    rw [e, hn]
    simp only [lresult_bind_ok, hope]
  · have e : ceFromPair ctx (Pair.mk Rule.ClassExpression s sp
        [Pair.mk Rule.DataMinCardinality s2 sp2 [np, dpp]])
      = (u32FromPair np >>= fun m =>
          dataPropertyFromPair ctx dpp >>= fun d =>
          (Except.ok (DataRange.Datatype (Datatype.mk (buildIRI rdfsLiteralIRIStr)))
             : LResult DataRange) >>= fun dr =>
          Except.ok (ClassExpression.DataMinCardinality m d dr)) := rfl
    rw [e, hn]
    simp only [lresult_bind_ok, hdp]
  · have e : ceFromPair ctx (Pair.mk Rule.ClassExpression s sp
        [Pair.mk Rule.DataMaxCardinality s2 sp2 [np, dpp]])
      = (u32FromPair np >>= fun m =>
          dataPropertyFromPair ctx dpp >>= fun d =>
          (Except.ok (DataRange.Datatype (Datatype.mk (buildIRI rdfsLiteralIRIStr)))
             : LResult DataRange) >>= fun dr =>
          Except.ok (ClassExpression.DataMaxCardinality m d dr)) := rfl
    rw [e, hn]
    simp only [lresult_bind_ok, hdp]
  · have e : ceFromPair ctx (Pair.mk Rule.ClassExpression s sp
        [Pair.mk Rule.DataExactCardinality s2 sp2 [np, dpp]])
      = (u32FromPair np >>= fun m =>
          dataPropertyFromPair ctx dpp >>= fun d =>
          (Except.ok (DataRange.Datatype (Datatype.mk (buildIRI rdfsLiteralIRIStr)))
             : LResult DataRange) >>= fun dr =>
          Except.ok (ClassExpression.DataExactCardinality m d dr)) := rfl
    rw [e, hn]
    simp only [lresult_bind_ok, hdp]

/-- Witness for C2 at concrete operands: `ObjectMinCardinality(2 ex:p)`
and the other five forms, with fully lowered children. -/
theorem c2_cardinality_defaults_witness :
    (u32FromPair (Pair.mk Rule.NonNegativeInteger "2" 0 []) = Except.ok 2) ∧
    (opeFromPair sampleContext
       (Pair.mk Rule.ObjectPropertyExpression "" 0
         [Pair.mk Rule.ObjectProperty "" 0
           [Pair.mk Rule.IRI "" 0
             [Pair.mk Rule.FullIRI "" 0
               [Pair.mk Rule.NodeID "http://www.example.com/p" 0 []]]]])
       = Except.ok (ObjectPropertyExpression.ObjectProperty
           (ObjectProperty.mk (IRI.mk "http://www.example.com/p")))) ∧
    (dataPropertyFromPair sampleContext (sampleDPPair "http://www.example.com/d" 0)
       = Except.ok (DataProperty.mk (IRI.mk "http://www.example.com/d"))) ∧
    ceFromPair sampleContext (Pair.mk Rule.ClassExpression "" 0
        [Pair.mk Rule.ObjectMinCardinality "" 0
          [Pair.mk Rule.NonNegativeInteger "2" 0 [],
           Pair.mk Rule.ObjectPropertyExpression "" 0
             [Pair.mk Rule.ObjectProperty "" 0
               [Pair.mk Rule.IRI "" 0
                 [Pair.mk Rule.FullIRI "" 0
                   [Pair.mk Rule.NodeID "http://www.example.com/p" 0 []]]]]]])
      = Except.ok (ClassExpression.ObjectMinCardinality 2
          (ObjectPropertyExpression.ObjectProperty
            (ObjectProperty.mk (IRI.mk "http://www.example.com/p")))
          (ClassExpression.Class (Class.mk (buildIRI owlThingIRIStr)))) :=
  ⟨rfl, rfl, rfl,
    (c2_cardinality_defaults sampleContext "" "" 0 0
      (Pair.mk Rule.NonNegativeInteger "2" 0 [])
      (Pair.mk Rule.ObjectPropertyExpression "" 0
        [Pair.mk Rule.ObjectProperty "" 0
          [Pair.mk Rule.IRI "" 0
            [Pair.mk Rule.FullIRI "" 0
              [Pair.mk Rule.NodeID "http://www.example.com/p" 0 []]]]])
      (sampleDPPair "http://www.example.com/d" 0) 2
      (ObjectPropertyExpression.ObjectProperty
        (ObjectProperty.mk (IRI.mk "http://www.example.com/p")))
      (DataProperty.mk (IRI.mk "http://www.example.com/d"))
      rfl rfl rfl).1⟩

end Horned

/-! ## C5: SubClassOf stores (superclass, subclass) -/

namespace Horned

/-- A closed sample atomic class-expression node (for concrete
evaluations). -/
def sampleClassCEPair (s : String) (sp : Nat) : Pair :=
  Pair.mk Rule.ClassExpression "" sp
    [Pair.mk Rule.Class "" sp
      [Pair.mk Rule.IRI "" sp
        [Pair.mk Rule.FullIRI "" sp [Pair.mk Rule.NodeID s sp []]]]]

/-- Claim C5: a surface `SubClassOf` axiom with operands in order
(sub, sup) lowers to a component whose first (`sup`) field holds the
second surface operand and whose second (`sub`) field holds the first:
the lowering swaps the surface order into the stored
(superclass, subclass) order. -/
theorem c5_subclassof_swaps_operands (ctx : Context) (s s2 : String)
    (sp sp2 : Nat) (annp subp supp : Pair) (anns : Finset Annot)
    (csub csup : ClassExpression)
    (ha : annotSetFromPair ctx annp = Except.ok anns)
    (hsub : ceFromPair ctx subp = Except.ok csub)
    (hsup : ceFromPair ctx supp = Except.ok csup) :
    annotatedComponentFromPair ctx (Pair.mk Rule.Axiom s sp
        [Pair.mk Rule.SubClassOf s2 sp2 [annp, subp, supp]])
      = Except.ok (AnnotatedComponent.mk (Component.SubClassOf csup csub) anns) := by
  have e : annotatedComponentFromPair ctx (Pair.mk Rule.Axiom s sp
        [Pair.mk Rule.SubClassOf s2 sp2 [annp, subp, supp]])
      = (annotSetFromPair ctx annp >>= fun an =>
         ceFromPair ctx subp >>= fun subcls =>
         ceFromPair ctx supp >>= fun supercls =>
         Except.ok (AnnotatedComponent.mk
           (Component.SubClassOf supercls subcls) an)) := rfl
  rw [e, ha]
  simp only [lresult_bind_ok, hsub, hsup]

/-- Witness for C5 at concrete operands: the surface axiom
`SubClassOf(ex:sub, ex:sup)` stores `sup := ex:sup` and `sub := ex:sub`. -/
theorem c5_subclassof_swaps_operands_witness :
    (annotSetFromPair sampleContext (Pair.mk Rule.Annotations "" 0 [])
       = Except.ok ∅) ∧
    (ceFromPair sampleContext (sampleClassCEPair "http://www.example.com/sub" 0)
       = Except.ok (ClassExpression.Class (Class.mk (IRI.mk "http://www.example.com/sub")))) ∧
    (ceFromPair sampleContext (sampleClassCEPair "http://www.example.com/sup" 0)
       = Except.ok (ClassExpression.Class (Class.mk (IRI.mk "http://www.example.com/sup")))) ∧
    annotatedComponentFromPair sampleContext (Pair.mk Rule.Axiom "" 0
        [Pair.mk Rule.SubClassOf "" 0
          [Pair.mk Rule.Annotations "" 0 [],
           sampleClassCEPair "http://www.example.com/sub" 0,
           sampleClassCEPair "http://www.example.com/sup" 0]])
      = Except.ok (AnnotatedComponent.mk
          (Component.SubClassOf
            (ClassExpression.Class (Class.mk (IRI.mk "http://www.example.com/sup")))
            (ClassExpression.Class (Class.mk (IRI.mk "http://www.example.com/sub"))))
          ∅) :=
  ⟨rfl, rfl, rfl,
    c5_subclassof_swaps_operands sampleContext "" "" 0 0
      (Pair.mk Rule.Annotations "" 0 [])
      (sampleClassCEPair "http://www.example.com/sub" 0)
      (sampleClassCEPair "http://www.example.com/sup" 0)
      ∅
      (ClassExpression.Class (Class.mk (IRI.mk "http://www.example.com/sub")))
      (ClassExpression.Class (Class.mk (IRI.mk "http://www.example.com/sup")))
      rfl rfl rfl⟩

end Horned

/-! ## C8: quoted-string unescaping -/

namespace Horned

/-- The claim's reading of the escape processing: one left-to-right pass in
which a backslash-backslash pair becomes one backslash, a backslash-quote
pair becomes one quote, and every other character — in particular a
backslash starting any other sequence — is preserved verbatim. -/
def singlePassUnescape : List Char → List Char
  | [] => []
  | [c] => [c]
  | c :: d :: r =>
    if c = '\\' ∧ d = '\\' then '\\' :: singlePassUnescape r
    else if c = '\\' ∧ d = '"' then '"' :: singlePassUnescape r
    else c :: singlePassUnescape (d :: r)

/-- Payloads in which every double quote occurs as part of a
backslash-quote escape: the shape the grammar can put between the
surrounding quotes, plus the non-conforming lone backslash sequences the
claim requires to survive verbatim. -/
inductive ValidPayload : List Char → Prop where
  | nil : ValidPayload []
  | escBB {r : List Char} : ValidPayload r → ValidPayload ('\\' :: '\\' :: r)
  | escBQ {r : List Char} : ValidPayload r → ValidPayload ('\\' :: '"' :: r)
  | chr {c : Char} {r : List Char} : c ≠ '"' → c ≠ '\\' → ValidPayload r →
      ValidPayload (c :: r)
  | bsOther {c : Char} {r : List Char} : c ≠ '"' → c ≠ '\\' → ValidPayload r →
      ValidPayload ('\\' :: c :: r)
  | bsEnd : ValidPayload ['\\']

/-- On a valid payload the first replacement pass never leaves a quote in
head position (a quote can only surface behind the backslash it was
escaped with). -/
theorem replaceBB_head_ne_quote {p : List Char} (h : ValidPayload p) :
    (replaceBB p).head? ≠ some '"' := by
  cases h with
  | nil => simp [replaceBB]
  | escBB hr => simp [replaceBB]
  | escBQ hr =>
      rw [replaceBB, if_neg (by simp)]
      simp
  | chr hc1 hc2 hr =>
      rename_i c r
      cases r with
      | nil => simp [replaceBB, hc1]
      | cons d t =>
          rw [replaceBB, if_neg (by simp [hc2])]
          simp [hc1]
  | bsOther hc1 hc2 hr =>
      rename_i c r
      rw [replaceBB, if_neg (by simp [hc2])]
      simp
  | bsEnd => simp [replaceBB]

/-- Pushing the second pass over a leading backslash whose successor is not
a quote. -/
theorem replaceBQ_cons_backslash (l : List Char) (h : l.head? ≠ some '"') :
    replaceBQ ('\\' :: l) = '\\' :: replaceBQ l := by
  cases l with
  | nil => rfl
  | cons d t =>
      have hd : d ≠ '"' := by
        intro hdq
        exact h (by rw [hdq]; rfl)
      rw [replaceBQ, if_neg (by simp [hd])]

/-- Pushing the second pass over any non-backslash head character. -/
theorem replaceBQ_cons_other (c : Char) (l : List Char) (h : c ≠ '\\') :
    replaceBQ (c :: l) = c :: replaceBQ l := by
  cases l with
  | nil => rfl
  | cons d t => rw [replaceBQ, if_neg (by simp [h])]

/-- The sequential two-pass replacement of the source equals the claim's
single left-to-right pass, on valid payloads. -/
theorem replace_eq_singlePass {p : List Char} (h : ValidPayload p) :
    replaceBQ (replaceBB p) = singlePassUnescape p := by
  induction h with
  | nil => rfl
  | escBB hr ih =>
      rw [replaceBB, if_pos ⟨rfl, rfl⟩]
      rw [replaceBQ_cons_backslash _ (replaceBB_head_ne_quote hr), ih]
      rw [singlePassUnescape, if_pos ⟨rfl, rfl⟩]
  | escBQ hr ih =>
      rename_i r
      rw [replaceBB, if_neg (by simp)]
      rw [show replaceBB ('"' :: r) = '"' :: replaceBB r from ?_]
      · rw [replaceBQ, if_pos ⟨rfl, rfl⟩, ih]
        rw [singlePassUnescape, if_neg (by simp), if_pos ⟨rfl, rfl⟩]
      · cases r with
        | nil => rfl
        | cons d t => rw [replaceBB, if_neg (by simp)]
  | chr hc1 hc2 hr ih =>
      rename_i c r
      cases r with
      | nil => rfl
      | cons d t =>
          rw [replaceBB, if_neg (by simp [hc2])]
          rw [replaceBQ_cons_other _ _ hc2, ih]
          rw [singlePassUnescape, if_neg (by simp [hc2]), if_neg (by simp [hc2])]
  | bsOther hc1 hc2 hr ih =>
      rename_i c r
      rw [replaceBB, if_neg (by simp [hc2])]
      cases r with
      | nil =>
          rw [show replaceBB [c] = [c] from rfl]
          rw [replaceBQ, if_neg (by simp [hc1])]
          rw [replaceBQ_cons_other _ _ hc2]
          rw [singlePassUnescape, if_neg (by simp [hc2]), if_neg (by simp [hc1])]
          rw [singlePassUnescape]
          rfl
      | cons d t =>
          rw [replaceBB, if_neg (by simp [hc2])]
          rw [replaceBQ, if_neg (by simp [hc1])]
          rw [replaceBQ_cons_other _ _ hc2, ih]
          rw [singlePassUnescape, if_neg (by simp [hc2]), if_neg (by simp [hc1])]
          rw [singlePassUnescape, if_neg (by simp [hc2]), if_neg (by simp [hc2])]
  | bsEnd => rfl

/-- Without either escape sequence, the single pass is the identity. -/
theorem singlePass_id : ∀ p : List Char,
    containsBB p = false → containsBQ p = false → singlePassUnescape p = p
  | [], _, _ => rfl
  | [c], _, _ => rfl
  | c :: d :: r, h1, h2 => by
      have hc1 : ¬(c = '\\' ∧ d = '\\') := by
        intro hh
        rw [containsBB, if_pos hh] at h1
        exact Bool.true_eq_false.mp h1
      have hc2 : ¬(c = '\\' ∧ d = '"') := by
        intro hh
        rw [containsBQ, if_pos hh] at h2
        exact Bool.true_eq_false.mp h2
      rw [containsBB, if_neg hc1] at h1
      rw [containsBQ, if_neg hc2] at h2
      rw [singlePassUnescape, if_neg hc1, if_neg hc2,
        singlePass_id (d :: r) h1 h2]

end Horned

namespace Horned

/-- The quote stripping of `&s[1..l-1]` on a quoted payload. -/
theorem unquote_payload (p : List Char) :
    (((String.mk ('"' :: (p ++ ['"']))).data.drop 1).dropLast) = p := by
  show ((('"' :: (p ++ ['"'])).drop 1).dropLast) = p
  rw [List.drop_one, List.tail_cons, List.dropLast_concat]

/-- Claim C8: lowering a `QuotedString` node strips the surrounding
quotes; on a payload containing escaped backslashes or escaped quotes the
two escape sequences — and nothing else — are rewritten, agreeing with a
single left-to-right unescape pass on every grammar-shaped payload; a
payload free of both sequences (in particular one holding any other
backslash sequence, such as backslash-n) is returned verbatim, and no
input makes the lowering fail. -/
theorem c8_quoted_string_unescape :
    (∀ (p : List Char) (sp : Nat), ValidPayload p →
       stringFromPair (Pair.mk Rule.QuotedString (String.mk ('"' :: (p ++ ['"']))) sp [])
         = Except.ok (String.mk (singlePassUnescape p))) ∧
    (∀ (p : List Char) (sp : Nat), containsBB p = false → containsBQ p = false →
       stringFromPair (Pair.mk Rule.QuotedString (String.mk ('"' :: (p ++ ['"']))) sp [])
         = Except.ok (String.mk p)) := by
  constructor
  · intro p sp hv
    unfold stringFromPair
    rw [show (Pair.mk Rule.QuotedString (String.mk ('"' :: (p ++ ['"']))) sp []).str
          = String.mk ('"' :: (p ++ ['"'])) from rfl]
    rw [unquote_payload]
    by_cases hb : containsBB p || containsBQ p
    · rw [if_pos hb, replace_eq_singlePass hv]
    · rw [if_neg hb]
      have hb' := Bool.or_eq_false_iff.mp (Bool.not_eq_true _ |>.mp hb)
      rw [singlePass_id p hb'.1 hb'.2]
  · intro p sp h1 h2
    unfold stringFromPair
    rw [show (Pair.mk Rule.QuotedString (String.mk ('"' :: (p ++ ['"']))) sp []).str
          = String.mk ('"' :: (p ++ ['"'])) from rfl]
    rw [unquote_payload, if_neg (by rw [h1, h2]; simp)]

/-- Witness for C8 at two concrete payloads: the non-conforming payload
a backslash-n b is preserved verbatim, and the payload
backslash-backslash x backslash-quote unescapes to backslash x quote. -/
theorem c8_quoted_string_unescape_witness :
    ValidPayload ['a', '\\', 'n', 'b'] ∧
    stringFromPair (Pair.mk Rule.QuotedString
        (String.mk ('"' :: (['a', '\\', 'n', 'b'] ++ ['"']))) 0 [])
      = Except.ok (String.mk ['a', '\\', 'n', 'b']) ∧
    ValidPayload ['\\', '\\', 'x', '\\', '"'] ∧
    stringFromPair (Pair.mk Rule.QuotedString
        (String.mk ('"' :: (['\\', '\\', 'x', '\\', '"'] ++ ['"']))) 0 [])
      = Except.ok (String.mk ['\\', 'x', '"']) := by
  have hv1 : ValidPayload ['a', '\\', 'n', 'b'] :=
    ValidPayload.chr (by decide) (by decide)
      (ValidPayload.bsOther (by decide) (by decide)
        (ValidPayload.chr (by decide) (by decide) ValidPayload.nil))
  have hv2 : ValidPayload ['\\', '\\', 'x', '\\', '"'] :=
    ValidPayload.escBB
      (ValidPayload.chr (by decide) (by decide)
        (ValidPayload.escBQ ValidPayload.nil))
  refine ⟨hv1, ?_, hv2, ?_⟩
  · exact (c8_quoted_string_unescape.1 ['a', '\\', 'n', 'b'] 0 hv1).trans rfl
  · exact (c8_quoted_string_unescape.1 ['\\', '\\', 'x', '\\', '"'] 0 hv2).trans rfl

end Horned

/-! ## C6: declaration-kind lookup order -/

namespace Horned

/-- The fixed search order of `find_declaration_kind` (spec §4.F). -/
def declKindOrder : List NamedEntityKind :=
  [NamedEntityKind.Class, NamedEntityKind.ObjectProperty,
   NamedEntityKind.AnnotationProperty, NamedEntityKind.DataProperty,
   NamedEntityKind.NamedIndividual, NamedEntityKind.Datatype]

/-- Searching for an annotation-free declaration through
`find_logically_equal_axiom` succeeds exactly when some stored component
has that declaration as payload (the kind filter is subsumed by payload
equality, since the payload determines the kind). -/
theorem flea_isSome_eq_any (o : AxiomMappedOntology) (c : Component) :
    (findLogicallyEqualAxiom o (AnnotatedComponent.mk c ∅)).isSome
      = o.any (fun a => a.component == c) := by
  unfold findLogicallyEqualAxiom annotatedAxiomOfKind
  rw [List.find?_filter]
  apply Bool.eq_iff_iff.mpr
  rw [List.find?_isSome, List.any_eq_true]
  constructor
  · rintro ⟨a, ha, hp⟩
    simp only [AnnotatedComponent.logicalEq, AnnotatedComponent.kind,
      Bool.and_eq_true, beq_iff_eq, decide_eq_true_eq] at hp
    exact ⟨a, ha, by simp [hp.2]⟩
  · rintro ⟨a, ha, hp⟩
    simp only [beq_iff_eq] at hp
    refine ⟨a, ha, ?_⟩
    simp [AnnotatedComponent.logicalEq, AnnotatedComponent.kind, hp]

/-- Folding one step of an ordered search. -/
theorem find?_cons_elim {A : Type} {B : Type} (p : A → Bool) (k : A)
    (l : List A) (d : B) (f : A → B) :
    ((k :: l).find? p).elim d f = if p k then f k else (l.find? p).elim d f := by
  by_cases h : p k
  · rw [List.find?_cons_of_pos _ h, if_pos h]
    rfl
  · rw [List.find?_cons_of_neg _ h, if_neg h]

/-- Claim C6: `find_declaration_kind` returns the first kind of the fixed
order Class, ObjectProperty, AnnotationProperty, DataProperty,
NamedIndividual, Datatype whose declaration for the IRI is stored, and
falls back to the built-in vocabulary table (which may itself return
`none`) when no declaration is present. -/
theorem c6_find_declaration_kind (builtin : IRI → Option NamedEntityKind)
    (o : AxiomMappedOntology) (i : IRI) :
    findDeclarationKind builtin o i =
      (declKindOrder.find? (fun k =>
          o.any (fun a => a.component == declareComponent k i))).elim
        (builtin i) some := by
  unfold findDeclarationKind
  simp only [flea_isSome_eq_any]
  simp only [declKindOrder, find?_cons_elim, List.find?_nil, Option.elim_none,
    declareComponent]

end Horned

/-! ## C1: merging logically equal axioms -/

namespace Horned

/-- A concrete annotation over the fixed property p1 (C1 examples). -/
def c1Ann (s : String) : Annot :=
  Annot.mk (AnnotationProperty.mk (IRI.mk "http://www.example.com/p1"))
    (AnnotationValue.IRI (IRI.mk s))

/-- The concrete declaration payload of the C1 examples. -/
def c1Decl : Component :=
  Component.DeclareClass (Class.mk (IRI.mk "http://www.example.com"))

/-- Counterexample to claim C1 as stated: an ontology may already hold two
logically equal components (inserted with different annotation sets, as
the source's own `test_update_equal_axiom` does); `update_logically_equal_axiom`
merges only the first-found one, so two logically equal components remain —
not at most one. -/
theorem c1_counterexample :
    ¬ ((updateLogicallyEqualAxiom
          [AnnotatedComponent.mk c1Decl {c1Ann "http://www.example.com/a1"},
           AnnotatedComponent.mk c1Decl {c1Ann "http://www.example.com/a2"}]
          (AnnotatedComponent.mk c1Decl {c1Ann "http://www.example.com/a3"})).filter
        (fun c => c.logicalEq
          (AnnotatedComponent.mk c1Decl {c1Ann "http://www.example.com/a3"}))).length ≤ 1 := by
  decide

/-- Claim C1 as amended: when the ontology holds no component logically
equal to `a`, inserting `a` and then updating with a logically equal `b`
leaves exactly one logically equal component, and its annotation set is
`a.ann ∪ b.ann`. -/
theorem c1_update_merge (o : AxiomMappedOntology) (a b : AnnotatedComponent)
    (hab : a.component = b.component)
    (hno : ∀ c ∈ o, c.component ≠ a.component) :
    ((updateLogicallyEqualAxiom (insertAxiom o a) b).filter
        (fun c => c.logicalEq b)).length = 1 ∧
    (∀ c ∈ updateLogicallyEqualAxiom (insertAxiom o a) b,
       c.logicalEq b = true → c.ann = a.ann ∪ b.ann) := by
  have hfind : findLogicallyEqualAxiom (insertAxiom o a) b = some a := by
    unfold findLogicallyEqualAxiom annotatedAxiomOfKind insertAxiom
    rw [List.find?_filter, List.find?_append]
    have hnone : o.find? (fun c =>
        (c.kind == b.kind) ∧ c.logicalEq b) = none := by
      rw [List.find?_eq_none]
      intro c hc
      simp only [AnnotatedComponent.logicalEq, Bool.and_eq_true, beq_iff_eq,
        decide_eq_true_eq, not_and]
      intro _
      rw [← hab]
      exact hno c hc
    rw [hnone, List.find?_singleton]
    simp [AnnotatedComponent.logicalEq, AnnotatedComponent.kind, hab]
  have hnotmem : a ∉ o := by
    intro hmem
    exact hno a hmem rfl
  have hupd : updateLogicallyEqualAxiom (insertAxiom o a) b
      = o ++ [AnnotatedComponent.mk b.component (b.ann ∪ a.ann)] := by
    unfold updateLogicallyEqualAxiom
    rw [hfind]
    show insertAxiom ((insertAxiom o a).erase a) _ = _
    unfold insertAxiom
    rw [List.erase_append_right _ hnotmem, List.erase_cons_head, List.append_nil]
  rw [hupd]
  constructor
  · rw [List.filter_append]
    have h1 : o.filter (fun c => c.logicalEq b) = [] := by
      rw [List.filter_eq_nil_iff]
      intro c hc
      simp only [AnnotatedComponent.logicalEq, beq_eq_false_iff_ne, ne_eq,
        Bool.not_eq_true]
      rw [← hab]
      exact hno c hc
    rw [h1]
    have h2 : (AnnotatedComponent.mk b.component (b.ann ∪ a.ann)).logicalEq b
        = true := by
      simp [AnnotatedComponent.logicalEq]
    simp [h2]
  · intro c hc hceq
    rcases List.mem_append.mp hc with hco | hcnew
    · exfalso
      simp only [AnnotatedComponent.logicalEq, beq_iff_eq] at hceq
      exact hno c hco (hceq.trans hab.symm)
    · rcases List.mem_singleton.mp hcnew with rfl
      show b.ann ∪ a.ann = a.ann ∪ b.ann
      exact Finset.union_comm _ _

/-- Witness for C1 (amended) at concrete components: one unrelated
declaration in the ontology, then insert and update with two annotated
copies of the same declaration. -/
theorem c1_update_merge_witness :
    ((AnnotatedComponent.mk c1Decl {c1Ann "http://www.example.com/a1"}).component
       = (AnnotatedComponent.mk c1Decl {c1Ann "http://www.example.com/a2"}).component) ∧
    (∀ c ∈ [AnnotatedComponent.mk
              (Component.DeclareClass (Class.mk (IRI.mk "http://www.example.com/other")))
              (∅ : Finset Annot)],
       c.component ≠ (AnnotatedComponent.mk c1Decl {c1Ann "http://www.example.com/a1"}).component) ∧
    ((updateLogicallyEqualAxiom
        (insertAxiom
          [AnnotatedComponent.mk
            (Component.DeclareClass (Class.mk (IRI.mk "http://www.example.com/other")))
            (∅ : Finset Annot)]
          (AnnotatedComponent.mk c1Decl {c1Ann "http://www.example.com/a1"}))
        (AnnotatedComponent.mk c1Decl {c1Ann "http://www.example.com/a2"})).filter
      (fun c => c.logicalEq
        (AnnotatedComponent.mk c1Decl {c1Ann "http://www.example.com/a2"}))).length = 1 :=
  ⟨rfl, by decide,
    (c1_update_merge
      [AnnotatedComponent.mk
        (Component.DeclareClass (Class.mk (IRI.mk "http://www.example.com/other")))
        (∅ : Finset Annot)]
      (AnnotatedComponent.mk c1Decl {c1Ann "http://www.example.com/a1"})
      (AnnotatedComponent.mk c1Decl {c1Ann "http://www.example.com/a2"})
      rfl (by decide)).1⟩

end Horned

/-! ## C9: SWRL rules and DG axioms are dropped -/

namespace Horned

/-- An axiom-block member whose inner node is a SWRL `Rule` or a
`DGAxiom`. -/
def isSwrlItem (q : Pair) : Bool :=
  match q.children with
  | [] => false
  | inner :: _ => inner.rule == Rule.Rule || inner.rule == Rule.DGAxiom

/-- Bind respects pointwise-equal continuations. -/
theorem lresult_bind_congr {a : Type} {b : Type} {x : LResult a}
    {f g : a → LResult b} (h : ∀ v, f v = g v) : x >>= f = x >>= g := by
  cases x with
  | error e => rfl
  | ok v => exact h v

/-- A SWRL member contributes nothing: the loop step returns the ontology
unchanged. -/
theorem axiomItemStep_swrl (ctx : Context) (o : SetOntology) (q : Pair)
    (h : isSwrlItem q = true) : axiomItemStep ctx o q = Except.ok o := by
  unfold isSwrlItem at h
  unfold axiomItemStep
  cases hq : q.children with
  | nil => rw [hq] at h; exact absurd h (by simp)
  | cons inner rest =>
      rw [hq] at h
      simp only [Bool.or_eq_true, beq_iff_eq] at h
      rcases h with h | h <;> simp [h]

/-- Erasing the SWRL members of an axiom block does not change the folded
ontology. -/
theorem axLoop_filter_swrl (ctx : Context) :
    ∀ (l : List Pair) (o : SetOntology),
    List.foldlM (axiomItemStep ctx) o (l.filter (fun q => !isSwrlItem q))
      = List.foldlM (axiomItemStep ctx) o l
  | [], o => rfl
  | q :: t, o => by
      by_cases hs : isSwrlItem q
      · rw [List.filter_cons_of_neg (by simp [hs])]
        rw [List.foldlM_cons, axiomItemStep_swrl ctx o q hs, lresult_bind_ok]
        exact axLoop_filter_swrl ctx t o
      · rw [List.filter_cons_of_pos (by simp [hs]), List.foldlM_cons,
          List.foldlM_cons]
        exact lresult_bind_congr (fun o2 => axLoop_filter_swrl ctx t o2)

end Horned

namespace Horned

theorem Pair.rule_mk (r : Rule) (s : String) (sp : Nat) (cs : List Pair) :
    (Pair.mk r s sp cs).rule = r := rfl

theorem Pair.children_mk (r : Rule) (s : String) (sp : Nat) (cs : List Pair) :
    (Pair.mk r s sp cs).children = cs := rfl

/-- Claim C9: two `Ontology` parse nodes with the same header (no
ontology IRI, an ontology IRI, or an ontology IRI plus version IRI), the
same imports block and the same annotations block, whose axiom blocks
agree after erasing SWRL `Rule` and `DGAxiom` members, lower to equal
ontologies: the SWRL members contribute nothing. -/
theorem c9_swrl_members_dropped (ctx : Context) (s sA : String) (sp spA : Nat)
    (impP annP : Pair) (pre : List Pair) (rA : Rule) (ax1 ax2 : List Pair)
    (hdr : (pre = [] ∧ impP.rule ≠ Rule.OntologyIRI)
         ∨ (∃ a, pre = [a] ∧ a.rule = Rule.OntologyIRI ∧ impP.rule ≠ Rule.VersionIRI)
         ∨ (∃ a b2, pre = [a, b2] ∧ a.rule = Rule.OntologyIRI ∧ b2.rule = Rule.VersionIRI))
    (hax : ax1.filter (fun q => !isSwrlItem q) = ax2.filter (fun q => !isSwrlItem q)) :
    setOntologyFromPair ctx (Pair.mk Rule.Ontology s sp
        (pre ++ [impP, annP, Pair.mk rA sA spA ax1]))
      = setOntologyFromPair ctx (Pair.mk Rule.Ontology s sp
        (pre ++ [impP, annP, Pair.mk rA sA spA ax2])) := by
  have haxf : axiomsPhase ctx (Pair.mk rA sA spA ax1)
      = axiomsPhase ctx (Pair.mk rA sA spA ax2) := by
    funext o
    show List.foldlM (axiomItemStep ctx) o ax1 = List.foldlM (axiomItemStep ctx) o ax2
    rw [← axLoop_filter_swrl ctx ax1 o, hax, axLoop_filter_swrl ctx ax2 o]
  rcases hdr with ⟨hpre, himp⟩ | ⟨a, hpre, ha, himp⟩ | ⟨a, b2, hpre, ha, hb⟩
  · subst hpre
    have h1 : (impP.rule == Rule.OntologyIRI) = false := by simp [himp]
    simp only [Pair.rule_mk, Pair.children_mk, setOntologyFromPair,
      List.nil_append, ontologyIDPhase, h1, Bool.false_eq_true, if_false,
      lresult_bind_ok, haxf]
  · subst hpre
    have h1 : (a.rule == Rule.OntologyIRI) = true := by simp [ha]
    have h2 : (impP.rule == Rule.VersionIRI) = false := by simp [himp]
    cases hach : a.children with
    | nil =>
        simp only [Pair.rule_mk, Pair.children_mk, setOntologyFromPair,
          List.cons_append, List.nil_append, ontologyIDPhase, h1, if_true, hach]
    | cons inner rest2 =>
        simp only [Pair.rule_mk, Pair.children_mk, setOntologyFromPair,
          List.cons_append, List.nil_append, ontologyIDPhase, h1, if_true,
          hach, h2, Bool.false_eq_true, if_false, bind_assoc, lresult_bind_ok,
          haxf]
  · subst hpre
    have h1 : (a.rule == Rule.OntologyIRI) = true := by simp [ha]
    have h2 : (b2.rule == Rule.VersionIRI) = true := by simp [hb]
    cases hach : a.children with
    | nil =>
        simp only [Pair.rule_mk, Pair.children_mk, setOntologyFromPair,
          List.cons_append, List.nil_append, ontologyIDPhase, h1, if_true, hach]
    | cons inner rest2 =>
        cases hbch : b2.children with
        | nil =>
            simp only [Pair.rule_mk, Pair.children_mk, setOntologyFromPair,
              List.cons_append, List.nil_append, ontologyIDPhase, h1, if_true,
              hach, h2, hbch, bind_assoc, lresult_bind_ok]
        | cons inner2 rest3 =>
            simp only [Pair.rule_mk, Pair.children_mk, setOntologyFromPair,
              List.cons_append, List.nil_append, ontologyIDPhase, h1, if_true,
              hach, h2, hbch, bind_assoc, lresult_bind_ok, haxf]

/-- A concrete axiom-block member holding one class declaration. -/
def c9AxiomItem : Pair :=
  Pair.mk Rule.Axioms "" 0
    [Pair.mk Rule.Axiom "" 0
      [Pair.mk Rule.Declaration "" 0
        [Pair.mk Rule.Annotations "" 0 [],
         Pair.mk Rule.Declaration "" 0
           [Pair.mk Rule.ClassDeclaration "" 0
             [Pair.mk Rule.Class "" 0
               [Pair.mk Rule.IRI "" 0
                 [Pair.mk Rule.FullIRI "" 0
                   [Pair.mk Rule.NodeID "http://www.example.com/C" 0 []]]]]]]]]

/-- A concrete axiom-block member holding a SWRL rule. -/
def c9SwrlItem : Pair :=
  Pair.mk Rule.Axioms "" 0 [Pair.mk Rule.Rule "" 0 []]

/-- Witness for C9 at a concrete headerless document: with and without an
additional SWRL `Rule` member, the lowered ontologies coincide. -/
theorem c9_swrl_members_dropped_witness :
    (([] : List Pair) = [] ∧ (Pair.mk Rule.Imports "" 0 []).rule ≠ Rule.OntologyIRI) ∧
    ([c9AxiomItem].filter (fun q => !isSwrlItem q)
      = [c9SwrlItem, c9AxiomItem].filter (fun q => !isSwrlItem q)) ∧
    setOntologyFromPair sampleContext (Pair.mk Rule.Ontology "" 0
        ([] ++ [Pair.mk Rule.Imports "" 0 [],
                Pair.mk Rule.OntologyAnnotations "" 0 [],
                Pair.mk Rule.Axioms "" 0 [c9AxiomItem]]))
      = setOntologyFromPair sampleContext (Pair.mk Rule.Ontology "" 0
        ([] ++ [Pair.mk Rule.Imports "" 0 [],
                Pair.mk Rule.OntologyAnnotations "" 0 [],
                Pair.mk Rule.Axioms "" 0 [c9SwrlItem, c9AxiomItem]])) :=
  ⟨⟨rfl, by decide⟩, rfl,
    c9_swrl_members_dropped sampleContext "" "" 0 0
      (Pair.mk Rule.Imports "" 0 [])
      (Pair.mk Rule.OntologyAnnotations "" 0 [])
      [] Rule.Axioms [c9AxiomItem] [c9SwrlItem, c9AxiomItem]
      (Or.inl ⟨rfl, by decide⟩) rfl⟩

end Horned
